import Mathlib

/-!
# Doomsday protocol: shallow embedding and verification

This file embeds the arithmetic/state-transition core of the Doomsday
protocol (a constant-product AMM over the DOOM/LIFE pair, and a
pari-mutuel prediction market) and proves the specified properties
against it.

Conventions of the embedding:
* `u64` / `u128` machine integers are modelled as `Nat` together with
  explicit `% 2^64` (for Rust `as u64` truncating casts) and explicit
  bound checks (for Rust `checked_*` arithmetic, which returns `None`
  on overflow).
* Fallible instructions are functions into `Except`; an `.error`
  result models a transaction abort, in which no state change and no
  token transfer is observed (the atomicity guarantee of the ledger
  substrate).
* Pubkeys are modelled as `Nat` identifiers; account wiring, string
  fields and PDA bumps, which no verified property mentions, are on
  the substrate side of the interface boundary and are omitted from
  the state records.
* Of the source tree's two divergent prediction-market variants, the
  vault-integrated losing-pool-fee variant (`instructions/` plus
  `state/`, the one the design notes designate canonical) is the one
  embedded here.
* Rust's `(x as f64)` on a 128-bit integer and IEEE-754 `f64::sqrt`
  (correctly rounded) are modelled exactly over `Nat`: see `rnd64`
  and `floorSqrtRnd`.
-/

/-- 2^64, the size of the `u64` domain. -/
def U64 : Nat := 2 ^ 64

/-- 2^128, the size of the `u128` domain. -/
def U128 : Nat := 2 ^ 128

namespace Amm

/-- Fee in basis points (`SWAP_FEE_BPS = 30`, i.e. 0.3%). -/
def SWAP_FEE_BPS : Nat := 30

/-- Minimum liquidity locked forever (`MINIMUM_LIQUIDITY = 1000`). -/
def MINIMUM_LIQUIDITY : Nat := 1000

/-- The `LiquidityPool` account state (numeric fields). -/
structure LiquidityPool where
  doom_reserve : Nat
  life_reserve : Nat
  lp_supply : Nat
  total_fees_doom : Nat
  total_fees_life : Nat
  deriving DecidableEq, Repr

/-- The `AmmError` error codes. -/
inductive AmmError where
  | invalidAmount
  | overflow
  | underflow
  | slippageExceeded
  | insufficientInitialLiquidity
  | emptyPool
  | insufficientLiquidity
  deriving DecidableEq, Repr

/-- Model of Rust's `product as f64` for a nonnegative 128-bit integer:
IEEE-754 binary64 rounding (round to nearest, ties to even).  Integers
below `2^53` are exactly representable; larger ones round to the
nearest multiple of the ulp `2^(log2 n - 52)` of their binade.  The
result is always an integer. -/
def rnd64 (n : Nat) : Nat :=
  if n < 2 ^ 53 then n
  else
    let g := 2 ^ (Nat.log2 n - 52)
    let q := n / g
    let r := n % g
    if 2 * r < g then q * g
    else if g < 2 * r then (q + 1) * g
    else if q % 2 = 0 then q * g else (q + 1) * g

/-- Model of IEEE-754 `f64::sqrt` (correctly rounded to nearest, ties
to even) applied to a double holding the integer value `m`, followed
by floor-truncation to an integer (Rust's `as u64` cast, saturation
handled by the caller).  The real `√m` lies in the binade
`[2^e, 2^(e+1))` with `e = ⌊log2 m⌋ / 2`; the representable doubles
there are the multiples of `2^(e-52)`, so the correctly rounded square
root is the multiple nearest to `√m` (ties to the even mantissa). -/
def floorSqrtRnd (m : Nat) : Nat :=
  if m = 0 then 0
  else
    let e := Nat.log2 m / 2
    if e ≤ 52 then
      let d := 52 - e
      let k0 := Nat.sqrt (m * 4 ^ d)
      let k :=
        if 4 * (m * 4 ^ d) < (2 * k0 + 1) ^ 2 then k0
        else if (2 * k0 + 1) ^ 2 < 4 * (m * 4 ^ d) then k0 + 1
        else if k0 % 2 = 0 then k0 else k0 + 1
      k / 2 ^ d
    else
      let g := 2 ^ (e - 52)
      let k0 := Nat.sqrt m / g
      let k :=
        if 4 * m < ((2 * k0 + 1) * g) ^ 2 then k0
        else if ((2 * k0 + 1) * g) ^ 2 < 4 * m then k0 + 1
        else if k0 % 2 = 0 then k0 else k0 + 1
      k * g

/-- The LP tokens an `add_liquidity` deposit mints.  First deposit
(`lp_supply = 0`): `(product as f64).sqrt() as u64` (geometric mean
through double-precision floating point, modelled by
`floorSqrtRnd ∘ rnd64` with the saturating float-to-int cast), which
must strictly exceed `MINIMUM_LIQUIDITY`; subsequent deposits: the
more constraining proportional ratio, cast `as u64`. -/
def mintForDeposit (pool : LiquidityPool) (doom_amount life_amount : Nat) :
    Except AmmError Nat :=
  if pool.lp_supply = 0 then
    if doom_amount * life_amount < U128 then
      if MINIMUM_LIQUIDITY < min (floorSqrtRnd (rnd64 (doom_amount * life_amount))) (U64 - 1)
      then .ok (min (floorSqrtRnd (rnd64 (doom_amount * life_amount))) (U64 - 1))
      else .error .insufficientInitialLiquidity
    else .error .overflow
  else
    if doom_amount * pool.lp_supply < U128 ∧ 0 < pool.doom_reserve ∧
        life_amount * pool.lp_supply < U128 ∧ 0 < pool.life_reserve then
      .ok (min (doom_amount * pool.lp_supply / pool.doom_reserve)
               (life_amount * pool.lp_supply / pool.life_reserve) % U64)
    else .error .overflow

/-- `add_liquidity(doom_amount, life_amount, min_lp_tokens)`: requires
both amounts positive, mints `mintForDeposit`, enforces the caller's
slippage floor, then commits both transfers and the reserve/supply
updates (checked additions).  Returns the updated pool and the LP
tokens minted. -/
def add_liquidity (pool : LiquidityPool) (doom_amount life_amount min_lp_tokens : Nat) :
    Except AmmError (LiquidityPool × Nat) :=
  if 0 < doom_amount ∧ 0 < life_amount then
    match mintForDeposit pool doom_amount life_amount with
    | .error e => .error e
    | .ok lp_tokens_to_mint =>
      if min_lp_tokens ≤ lp_tokens_to_mint then
        if pool.doom_reserve + doom_amount < U64 ∧
            pool.life_reserve + life_amount < U64 ∧
            pool.lp_supply + lp_tokens_to_mint < U64 then
          .ok ({ pool with
                 doom_reserve := pool.doom_reserve + doom_amount,
                 life_reserve := pool.life_reserve + life_amount,
                 lp_supply := pool.lp_supply + lp_tokens_to_mint },
               lp_tokens_to_mint)
        else .error .overflow
      else .error .slippageExceeded
  else .error .invalidAmount

/-- The incoming-side reserve selected by the swap direction. -/
def reserveIn (pool : LiquidityPool) (doom_to_life : Bool) : Nat :=
  if doom_to_life then pool.doom_reserve else pool.life_reserve

/-- The outgoing-side reserve selected by the swap direction. -/
def reserveOut (pool : LiquidityPool) (doom_to_life : Bool) : Nat :=
  if doom_to_life then pool.life_reserve else pool.doom_reserve

/-- The swap output amount: the constant-product-with-fee quotient
`amount_in_with_fee * reserve_out / (reserve_in * 10000 +
amount_in_with_fee)` over 128-bit intermediates, cast `as u64`. -/
def swapAmountOut (pool : LiquidityPool) (amount_in : Nat) (doom_to_life : Bool) : Nat :=
  amount_in * (10000 - SWAP_FEE_BPS) * reserveOut pool doom_to_life /
    (reserveIn pool doom_to_life * 10000 + amount_in * (10000 - SWAP_FEE_BPS)) % U64

/-- `swap(amount_in, min_amount_out, doom_to_life)`: constant-product
swap with a 0.3% fee, all multiplications through checked 128-bit
intermediates.  Returns the updated pool and `amount_out`. -/
def swap (pool : LiquidityPool) (amount_in min_amount_out : Nat) (doom_to_life : Bool) :
    Except AmmError (LiquidityPool × Nat) :=
  if 0 < amount_in then
    if 0 < pool.doom_reserve ∧ 0 < pool.life_reserve then
      if amount_in * (10000 - SWAP_FEE_BPS) < U128 then
        if amount_in * (10000 - SWAP_FEE_BPS) * reserveOut pool doom_to_life < U128 then
          if reserveIn pool doom_to_life * 10000 < U128 then
            if reserveIn pool doom_to_life * 10000 +
                amount_in * (10000 - SWAP_FEE_BPS) < U128 then
              if 0 < reserveIn pool doom_to_life * 10000 +
                  amount_in * (10000 - SWAP_FEE_BPS) then
                if min_amount_out ≤ swapAmountOut pool amount_in doom_to_life then
                  if swapAmountOut pool amount_in doom_to_life <
                      reserveOut pool doom_to_life then
                    if doom_to_life then
                      if pool.doom_reserve + amount_in < U64 then
                        if swapAmountOut pool amount_in doom_to_life ≤
                            pool.life_reserve then
                          if amount_in * SWAP_FEE_BPS < U64 then
                            .ok ({ pool with
                                   doom_reserve := pool.doom_reserve + amount_in,
                                   life_reserve := pool.life_reserve -
                                     swapAmountOut pool amount_in doom_to_life,
                                   total_fees_doom :=
                                     min (pool.total_fees_doom +
                                            amount_in * SWAP_FEE_BPS / 10000)
                                         (U64 - 1) },
                                 swapAmountOut pool amount_in doom_to_life)
                          else .error .overflow
                        else .error .underflow
                      else .error .overflow
                    else
                      if pool.life_reserve + amount_in < U64 then
                        if swapAmountOut pool amount_in doom_to_life ≤
                            pool.doom_reserve then
                          if amount_in * SWAP_FEE_BPS < U64 then
                            .ok ({ pool with
                                   life_reserve := pool.life_reserve + amount_in,
                                   doom_reserve := pool.doom_reserve -
                                     swapAmountOut pool amount_in doom_to_life,
                                   total_fees_life :=
                                     min (pool.total_fees_life +
                                            amount_in * SWAP_FEE_BPS / 10000)
                                         (U64 - 1) },
                                 swapAmountOut pool amount_in doom_to_life)
                          else .error .overflow
                        else .error .underflow
                      else .error .overflow
                  else .error .insufficientLiquidity
                else .error .slippageExceeded
              else .error .overflow
            else .error .overflow
          else .error .overflow
        else .error .overflow
      else .error .overflow
    else .error .emptyPool
  else .error .invalidAmount

end Amm

namespace PM

/-- The `Outcome` enum: the two sides of an event. -/
inductive Outcome where
  | doom
  | life
  deriving DecidableEq, Repr

/-- The `EventStatus` enum. -/
inductive EventStatus where
  | active
  | resolved
  | cancelled
  deriving DecidableEq, Repr

/-- The `PredictionError` error codes (the ones reachable from the
embedded operations), plus `constraintViolated` for an Anchor account
constraint that carries no custom error code, and `betAlreadyPlaced`
for the substrate-level failure of `init` when the `(event, user)` bet
account already exists. -/
inductive PredictionError where
  | platformPaused
  | eventEnded
  | eventNotResolved
  | eventAlreadyResolved
  | resolutionDeadlinePassed
  | invalidBetAmount
  | betAlreadyPlaced
  | alreadyClaimed
  | notAWinner
  | noWinnings
  | unauthorized
  | unauthorizedOracle
  | overflow
  | refundAlreadyClaimed
  | eventNotCancelled
  | constraintViolated
  deriving DecidableEq, Repr

/-- The `PredictionEvent` account state (numeric/logical fields;
pubkeys, bumps and the bounded title/description strings are account
wiring, unreferenced by the verified properties). -/
structure PredictionEvent where
  deadline : Int
  resolution_deadline : Int
  status : EventStatus
  outcome : Option Outcome
  doom_pool : Nat
  life_pool : Nat
  total_bettors : Nat
  resolved_at : Option Int
  deriving DecidableEq, Repr

/-- The `UserBet` account state; `user` is the owning pubkey modelled
as a `Nat` identifier. -/
structure UserBet where
  user : Nat
  outcome : Outcome
  amount : Nat
  placed_at : Int
  claimed : Bool
  refunded : Bool
  deriving DecidableEq, Repr

/-- The `PlatformConfig` singleton (authority/oracle pubkeys modelled
as `Nat` identifiers). -/
structure PlatformConfig where
  authority : Nat
  oracle : Nat
  fee_basis_points : Nat
  paused : Bool
  total_doom_fees : Nat
  total_life_fees : Nat
  total_events : Nat
  total_bets : Nat
  deriving DecidableEq, Repr

/-- `PredictionEvent::total_pool`: saturating sum of the two pools. -/
def PredictionEvent.total_pool (e : PredictionEvent) : Nat :=
  min (e.doom_pool + e.life_pool) (U64 - 1)

/-- `PredictionEvent::doom_odds`: implied odds for DOOM as
percentage × 100, `5000` when nobody has bet. -/
def PredictionEvent.doom_odds (e : PredictionEvent) : Nat :=
  let total := e.total_pool
  if total = 0 then 5000
  else e.doom_pool * 10000 / total % U64

/-- `PredictionEvent::life_odds`: implied odds for LIFE as
percentage × 100, `5000` when nobody has bet. -/
def PredictionEvent.life_odds (e : PredictionEvent) : Nat :=
  let total := e.total_pool
  if total = 0 then 5000
  else e.life_pool * 10000 / total % U64

/-- `PredictionEvent::is_betting_open`. -/
def PredictionEvent.is_betting_open (e : PredictionEvent) (current_time : Int) : Prop :=
  e.status = .active ∧ current_time < e.deadline

instance (e : PredictionEvent) (t : Int) : Decidable (e.is_betting_open t) := by
  unfold PredictionEvent.is_betting_open; infer_instance

/-- `UserBet::is_winner`. -/
def UserBet.is_winner (b : UserBet) (event_outcome : Option Outcome) : Prop :=
  event_outcome = some b.outcome

instance (b : UserBet) (o : Option Outcome) : Decidable (b.is_winner o) := by
  unfold UserBet.is_winner; infer_instance

/-- The winning-side pool for a given bet outcome (the `match` on
`bet_outcome` selecting `doom_pool`/`life_pool`). -/
def winningPoolOf (e : PredictionEvent) (bet_outcome : Outcome) : Nat :=
  match bet_outcome with
  | .doom => e.doom_pool
  | .life => e.life_pool

/-- The losing-side pool for a given bet outcome (the `match` on
`bet_outcome` selecting the opposite pool). -/
def losingPoolOf (e : PredictionEvent) (bet_outcome : Outcome) : Nat :=
  match bet_outcome with
  | .doom => e.life_pool
  | .life => e.doom_pool

/-- `PredictionEvent::calculate_payout(bet_amount, bet_outcome,
fee_basis_points) -> Option<(u64, u64)>`: the pari-mutuel payout of a
winning bet, `(total_payout, platform_fee)`: the bettor's share of the
losing pool is `bet_amount * losing_pool / winning_pool`, the fee is
taken on that share, and the payout returns the stake plus the net
share.  All arithmetic is checked 128-bit (`None` on overflow); the
final pair is cast `as u64` (truncation). -/
def PredictionEvent.calculate_payout (e : PredictionEvent)
    (bet_amount : Nat) (bet_outcome : Outcome) (fee_basis_points : Nat) :
    Option (Nat × Nat) :=
  if e.outcome ≠ some bet_outcome then none
  else if winningPoolOf e bet_outcome = 0 then none
  else if bet_amount * losingPoolOf e bet_outcome < U128 then
    if bet_amount * losingPoolOf e bet_outcome / winningPoolOf e bet_outcome *
        fee_basis_points < U128 then
      if bet_amount * losingPoolOf e bet_outcome / winningPoolOf e bet_outcome *
          fee_basis_points / 10000 ≤
          bet_amount * losingPoolOf e bet_outcome / winningPoolOf e bet_outcome then
        if bet_amount +
            (bet_amount * losingPoolOf e bet_outcome / winningPoolOf e bet_outcome -
             bet_amount * losingPoolOf e bet_outcome / winningPoolOf e bet_outcome *
               fee_basis_points / 10000) < U128 then
          some ((bet_amount +
                 (bet_amount * losingPoolOf e bet_outcome / winningPoolOf e bet_outcome -
                  bet_amount * losingPoolOf e bet_outcome / winningPoolOf e bet_outcome *
                    fee_basis_points / 10000)) % U64,
                bet_amount * losingPoolOf e bet_outcome / winningPoolOf e bet_outcome *
                  fee_basis_points / 10000 % U64)
        else none
      else none
    else none
  else none

/-- `place_bet(outcome, amount)` by `user` at time `now`.  Account
validation order: platform not paused, then `init` of the bet account
(fails when a bet by this user on this event already exists), then the
handler's checks.  Returns the updated config and event and the
created bet record. -/
def place_bet (cfg : PlatformConfig) (e : PredictionEvent) (bet : Option UserBet)
    (user : Nat) (outcome : Outcome) (amount : Nat) (now : Int) :
    Except PredictionError (PlatformConfig × PredictionEvent × UserBet) :=
  if cfg.paused then .error .platformPaused
  else if bet.isSome then .error .betAlreadyPlaced
  else if ¬ 0 < amount then .error .invalidBetAmount
  else if ¬ e.is_betting_open now then .error .eventEnded
  else
    let poolsRes : Except PredictionError PredictionEvent :=
      match outcome with
      | .doom =>
        if ¬ e.doom_pool + amount < U64 then .error .overflow
        else .ok { e with doom_pool := e.doom_pool + amount }
      | .life =>
        if ¬ e.life_pool + amount < U64 then .error .overflow
        else .ok { e with life_pool := e.life_pool + amount }
    match poolsRes with
    | .error err => .error err
    | .ok e1 =>
      .ok ({ cfg with total_bets := min (cfg.total_bets + 1) (U64 - 1) },
           { e1 with total_bettors := min (e1.total_bettors + 1) (U64 - 1) },
           { user := user, outcome := outcome, amount := amount, placed_at := now,
             claimed := false, refunded := false })

/-- `resolve_event(outcome)` invoked by `caller` at time `now`.  The
oracle identity is an account constraint, checked before the handler's
status and window checks. -/
def resolve_event (cfg : PlatformConfig) (e : PredictionEvent)
    (caller : Nat) (now : Int) (outcome : Outcome) :
    Except PredictionError (PlatformConfig × PredictionEvent) :=
  if ¬ caller = cfg.oracle then .error .unauthorizedOracle
  else if ¬ e.status = .active then .error .eventAlreadyResolved
  else if ¬ e.deadline ≤ now then .error .eventNotResolved
  else if ¬ now ≤ e.resolution_deadline then .error .resolutionDeadlinePassed
  else .ok ({ cfg with total_events := min (cfg.total_events + 1) (U64 - 1) },
            { e with status := .resolved, outcome := some outcome,
                     resolved_at := some now })

/-- `cancel_event()` invoked by `caller`: admin-only, requires an
Active event, unconditionally sets Cancelled. -/
def cancel_event (cfg : PlatformConfig) (e : PredictionEvent) (caller : Nat) :
    Except PredictionError PredictionEvent :=
  if ¬ caller = cfg.authority then .error .unauthorized
  else if ¬ e.status = .active then .error .eventAlreadyResolved
  else .ok { e with status := .cancelled }

/-- `claim_winnings()` invoked by `caller`.  Account validation order:
event is Resolved, bet not yet claimed, bet owned by caller; then the
handler checks the bet won and computes the payout.  The returned
`Nat` is the total amount transferred to the user (stake from the
winning vault plus `payout.saturating_sub(stake)` from the losing
vault; `Nat` subtraction is exactly `saturating_sub`). -/
def claim_winnings (cfg : PlatformConfig) (e : PredictionEvent) (bet : UserBet)
    (caller : Nat) :
    Except PredictionError (PlatformConfig × UserBet × Nat) :=
  if ¬ e.status = .resolved then .error .eventNotResolved
  else if bet.claimed then .error .alreadyClaimed
  else if ¬ bet.user = caller then .error .constraintViolated
  else if ¬ bet.is_winner e.outcome then .error .notAWinner
  else
    match e.calculate_payout bet.amount bet.outcome cfg.fee_basis_points with
    | none => .error .noWinnings
    | some (payout, fee) =>
      let cfg1 := match bet.outcome with
        | .doom => { cfg with total_life_fees := min (cfg.total_life_fees + fee) (U64 - 1) }
        | .life => { cfg with total_doom_fees := min (cfg.total_doom_fees + fee) (U64 - 1) }
      .ok (cfg1, { bet with claimed := true }, bet.amount + (payout - bet.amount))

/-- `claim_refund()` invoked by `caller`: requires a Cancelled event
and a not-yet-refunded bet owned by the caller; refunds the original
stake from the side vault the user bet on.  The returned `Nat` is the
amount transferred back to the user. -/
def claim_refund (e : PredictionEvent) (bet : UserBet) (caller : Nat) :
    Except PredictionError (UserBet × Nat) :=
  if ¬ e.status = .cancelled then .error .eventNotCancelled
  else if bet.refunded then .error .refundAlreadyClaimed
  else if ¬ bet.user = caller then .error .constraintViolated
  else .ok ({ bet with refunded := true }, bet.amount)

/-- The state touched by the prediction-market operations on one event
and one user's bet on it: the singleton config, the event, and the
(possibly not yet created) bet account.  Operations on other events or
other users' bets touch disjoint accounts and cannot modify this
state (the substrate's exclusive-access guarantee). -/
structure MarketState where
  config : PlatformConfig
  event : PredictionEvent
  bet : Option UserBet

/-- One successful operation of the prediction market applied to a
`MarketState`; failing invocations leave no trace (transaction
atomicity), so only `.ok` results generate transitions. -/
inductive Step : MarketState → MarketState → Prop where
  | placeBet {s : MarketState} {cfg1 e1 b1} (user : Nat) (o : Outcome)
      (amount : Nat) (now : Int) :
      place_bet s.config s.event s.bet user o amount now = .ok (cfg1, e1, b1) →
      Step s ⟨cfg1, e1, some b1⟩
  | resolveEvent {s : MarketState} {cfg1 e1} (caller : Nat) (now : Int) (o : Outcome) :
      resolve_event s.config s.event caller now o = .ok (cfg1, e1) →
      Step s ⟨cfg1, e1, s.bet⟩
  | cancelEvent {s : MarketState} {e1} (caller : Nat) :
      cancel_event s.config s.event caller = .ok e1 →
      Step s ⟨s.config, e1, s.bet⟩
  | claimWinnings {s : MarketState} {b cfg1 b1 t} (caller : Nat) :
      s.bet = some b →
      claim_winnings s.config s.event b caller = .ok (cfg1, b1, t) →
      Step s ⟨cfg1, s.event, some b1⟩
  | claimRefund {s : MarketState} {b b1 t} (caller : Nat) :
      s.bet = some b →
      claim_refund s.event b caller = .ok (b1, t) →
      Step s ⟨s.config, s.event, some b1⟩

/-- The per-bet bookkeeping invariant: a claimed bet witnesses a
Resolved event, a refunded bet witnesses a Cancelled event. -/
def BetInv (s : MarketState) : Prop :=
  ∀ b, s.bet = some b →
    (b.claimed = true → s.event.status = .resolved) ∧
    (b.refunded = true → s.event.status = .cancelled)

/-- The first component (the user payout) of `calculate_payout`, or 0
when the computation yields no winnings. -/
def payoutOrZero (e : PredictionEvent) (w : Nat) (b : Outcome) (fee_bps : Nat) : Nat :=
  match e.calculate_payout w b fee_bps with
  | some (p, _) => p
  | none => 0

/-- The total paid out to a collection of winning wagers. -/
def totalPayouts (e : PredictionEvent) (b : Outcome) (fee_bps : Nat)
    (ws : List Nat) : Nat :=
  (ws.map fun w => payoutOrZero e w b fee_bps).sum

end PM

/-! ## Generic arithmetic helpers -/

/-- Evaluation helper for `Nat.log2` at concrete points. -/
theorem log2_eq_of {n k : Nat} (h1 : 2 ^ k ≤ n) (h2 : n < 2 ^ (k + 1)) :
    Nat.log2 n = k := by
  rw [Nat.log2_eq_log_two]
  exact Nat.log_eq_of_pow_le_of_lt_pow h1 h2

/-- Evaluation helper for `Nat.sqrt` at concrete points. -/
theorem sqrt_eq_of {n k : Nat} (h1 : k * k ≤ n) (h2 : n < (k + 1) * (k + 1)) :
    Nat.sqrt n = k :=
  Nat.le_antisymm (by have := Nat.sqrt_lt.2 h2; omega) (Nat.le_sqrt.2 h1)

/-- Floors distribute sub-additively over a common denominator. -/
theorem div_add_div_le (a b c : Nat) : a / c + b / c ≤ (a + b) / c := by
  rcases Nat.eq_zero_or_pos c with h | h
  · simp [h]
  · rw [Nat.le_div_iff_mul_le h, Nat.add_mul]
    exact Nat.add_le_add (Nat.div_mul_le_self a c) (Nat.div_mul_le_self b c)

/-- Inversion of a successful `swap`: the guards it passed and the shape of the updated pool. -/
theorem Amm.swap_ok_inv {pool : Amm.LiquidityPool} {amount_in min_amount_out : Nat}
    {doom_to_life : Bool} {pool1 : Amm.LiquidityPool} {out : Nat}
    (h : Amm.swap pool amount_in min_amount_out doom_to_life = .ok (pool1, out)) :
    0 < amount_in ∧ 0 < pool.doom_reserve ∧ 0 < pool.life_reserve ∧
    out = Amm.swapAmountOut pool amount_in doom_to_life ∧
    min_amount_out ≤ out ∧ out < Amm.reserveOut pool doom_to_life ∧
    pool1.doom_reserve =
      (if doom_to_life then pool.doom_reserve + amount_in else pool.doom_reserve - out) ∧
    pool1.life_reserve =
      (if doom_to_life then pool.life_reserve - out else pool.life_reserve + amount_in) ∧
    pool1.lp_supply = pool.lp_supply := by
  unfold Amm.swap at h
  by_cases c1 : 0 < amount_in
  case neg => rw [if_neg c1] at h; exact Except.noConfusion h
  rw [if_pos c1] at h
  by_cases c2 : 0 < pool.doom_reserve ∧ 0 < pool.life_reserve
  case neg => rw [if_neg c2] at h; exact Except.noConfusion h
  rw [if_pos c2] at h
  by_cases c3 : amount_in * (10000 - Amm.SWAP_FEE_BPS) < U128
  case neg => rw [if_neg c3] at h; exact Except.noConfusion h
  rw [if_pos c3] at h
  by_cases c4 : amount_in * (10000 - Amm.SWAP_FEE_BPS) * Amm.reserveOut pool doom_to_life < U128
  case neg => rw [if_neg c4] at h; exact Except.noConfusion h
  rw [if_pos c4] at h
  by_cases c5 : Amm.reserveIn pool doom_to_life * 10000 < U128
  case neg => rw [if_neg c5] at h; exact Except.noConfusion h
  rw [if_pos c5] at h
  by_cases c6 : Amm.reserveIn pool doom_to_life * 10000 +
      amount_in * (10000 - Amm.SWAP_FEE_BPS) < U128
  case neg => rw [if_neg c6] at h; exact Except.noConfusion h
  rw [if_pos c6] at h
  by_cases c7 : 0 < Amm.reserveIn pool doom_to_life * 10000 +
      amount_in * (10000 - Amm.SWAP_FEE_BPS)
  case neg => rw [if_neg c7] at h; exact Except.noConfusion h
  rw [if_pos c7] at h
  by_cases c8 : min_amount_out ≤ Amm.swapAmountOut pool amount_in doom_to_life
  case neg => rw [if_neg c8] at h; exact Except.noConfusion h
  rw [if_pos c8] at h
  by_cases c9 : Amm.swapAmountOut pool amount_in doom_to_life < Amm.reserveOut pool doom_to_life
  case neg => rw [if_neg c9] at h; exact Except.noConfusion h
  rw [if_pos c9] at h
  cases doom_to_life with
  | false =>
    rw [if_neg (by simp)] at h
    by_cases cA : pool.life_reserve + amount_in < U64
    case neg => rw [if_neg cA] at h; exact Except.noConfusion h
    rw [if_pos cA] at h
    by_cases cB : Amm.swapAmountOut pool amount_in false ≤ pool.doom_reserve
    case neg => rw [if_neg cB] at h; exact Except.noConfusion h
    rw [if_pos cB] at h
    by_cases cC : amount_in * Amm.SWAP_FEE_BPS < U64
    case neg => rw [if_neg cC] at h; exact Except.noConfusion h
    rw [if_pos cC] at h
    obtain ⟨h1, h2⟩ := Prod.mk.injEq .. |>.mp (Except.ok.inj h)
    subst h2
    refine ⟨c1, c2.1, c2.2, rfl, c8, c9, ?_, ?_, ?_⟩ <;> (rw [← h1]; try simp)
  | true =>
    rw [if_pos rfl] at h
    by_cases cA : pool.doom_reserve + amount_in < U64
    case neg => rw [if_neg cA] at h; exact Except.noConfusion h
    rw [if_pos cA] at h
    by_cases cB : Amm.swapAmountOut pool amount_in true ≤ pool.life_reserve
    case neg => rw [if_neg cB] at h; exact Except.noConfusion h
    rw [if_pos cB] at h
    by_cases cC : amount_in * Amm.SWAP_FEE_BPS < U64
    case neg => rw [if_neg cC] at h; exact Except.noConfusion h
    rw [if_pos cC] at h
    obtain ⟨h1, h2⟩ := Prod.mk.injEq .. |>.mp (Except.ok.inj h)
    subst h2
    refine ⟨c1, c2.1, c2.2, rfl, c8, c9, ?_, ?_, ?_⟩ <;> (rw [← h1]; try simp)

/-- Inversion of a successful `add_liquidity`: the guards it passed
and the shape of the updated pool. -/
theorem Amm.add_liquidity_ok_inv {pool : Amm.LiquidityPool} {a b minLp : Nat}
    {pool1 : Amm.LiquidityPool} {lp : Nat}
    (h : Amm.add_liquidity pool a b minLp = .ok (pool1, lp)) :
    0 < a ∧ 0 < b ∧ minLp ≤ lp ∧
    Amm.mintForDeposit pool a b = .ok lp ∧
    pool1.doom_reserve = pool.doom_reserve + a ∧
    pool1.life_reserve = pool.life_reserve + b ∧
    pool1.lp_supply = pool.lp_supply + lp := by
  unfold Amm.add_liquidity at h
  by_cases c1 : 0 < a ∧ 0 < b
  case neg => rw [if_neg c1] at h; exact Except.noConfusion h
  rw [if_pos c1] at h
  cases hm : Amm.mintForDeposit pool a b with
  | error e => rw [hm] at h; exact Except.noConfusion h
  | ok l =>
    rw [hm] at h
    simp only at h
    by_cases c2 : minLp ≤ l
    case neg => rw [if_neg c2] at h; exact Except.noConfusion h
    rw [if_pos c2] at h
    by_cases c3 : pool.doom_reserve + a < U64 ∧ pool.life_reserve + b < U64 ∧
        pool.lp_supply + l < U64
    case neg => rw [if_neg c3] at h; exact Except.noConfusion h
    rw [if_pos c3] at h
    obtain ⟨h1, h2⟩ := Prod.mk.injEq .. |>.mp (Except.ok.inj h)
    subst h2
    exact ⟨c1.1, c1.2, c2, rfl, by rw [← h1], by rw [← h1], by rw [← h1]⟩


/-- C4: for every successful `swap` and every successful
`add_liquidity`, the product `doom_reserve * life_reserve` after the
operation's reserve updates is at least the product before it (the
constant-product invariant is non-decreasing). -/
theorem c4_constant_product_nondecreasing :
    (∀ (pool : Amm.LiquidityPool) (amount_in min_amount_out : Nat) (d : Bool)
        (pool1 : Amm.LiquidityPool) (out : Nat),
      Amm.swap pool amount_in min_amount_out d = .ok (pool1, out) →
      pool.doom_reserve * pool.life_reserve ≤ pool1.doom_reserve * pool1.life_reserve) ∧
    (∀ (pool : Amm.LiquidityPool) (a b minLp : Nat)
        (pool1 : Amm.LiquidityPool) (lp : Nat),
      Amm.add_liquidity pool a b minLp = .ok (pool1, lp) →
      pool.doom_reserve * pool.life_reserve ≤ pool1.doom_reserve * pool1.life_reserve) := by
  constructor
  · intro pool amount_in min_amount_out d pool1 out h
    obtain ⟨hin, hdr, hlr, hout, hmin, hlt, hp1d, hp1l, hp1s⟩ := Amm.swap_ok_inv h
    have hle : out * (Amm.reserveIn pool d * 10000 + amount_in * (10000 - Amm.SWAP_FEE_BPS)) ≤
        amount_in * (10000 - Amm.SWAP_FEE_BPS) * Amm.reserveOut pool d := by
      have h1 : out ≤ amount_in * (10000 - Amm.SWAP_FEE_BPS) * Amm.reserveOut pool d /
          (Amm.reserveIn pool d * 10000 + amount_in * (10000 - Amm.SWAP_FEE_BPS)) := by
        rw [hout]; exact Nat.mod_le _ _
      calc out * (Amm.reserveIn pool d * 10000 + amount_in * (10000 - Amm.SWAP_FEE_BPS))
          ≤ amount_in * (10000 - Amm.SWAP_FEE_BPS) * Amm.reserveOut pool d /
              (Amm.reserveIn pool d * 10000 + amount_in * (10000 - Amm.SWAP_FEE_BPS)) *
              (Amm.reserveIn pool d * 10000 + amount_in * (10000 - Amm.SWAP_FEE_BPS)) :=
            Nat.mul_le_mul_right _ h1
        _ ≤ _ := Nat.div_mul_le_self _ _
    rw [hp1d, hp1l]
    cases d with
    | true =>
      simp only [Amm.reserveIn, Amm.reserveOut, Amm.SWAP_FEE_BPS, if_true,
        eq_self_iff_true, ite_true] at hle hlt ⊢
      have hlt' : out ≤ pool.life_reserve := le_of_lt hlt
      zify [hlt']
      nlinarith [hle, hlt, mul_nonneg (Int.ofNat_nonneg amount_in)
        (sub_nonneg.2 (by exact_mod_cast hlt' : (out : Int) ≤ pool.life_reserve))]
    | false =>
      simp only [Amm.reserveIn, Amm.reserveOut, Amm.SWAP_FEE_BPS, Bool.false_eq_true,
        if_false, ite_false] at hle hlt ⊢
      have hlt' : out ≤ pool.doom_reserve := le_of_lt hlt
      zify [hlt']
      nlinarith [hle, hlt, mul_nonneg (Int.ofNat_nonneg amount_in)
        (sub_nonneg.2 (by exact_mod_cast hlt' : (out : Int) ≤ pool.doom_reserve))]
  · intro pool a b minLp pool1 lp h
    obtain ⟨ha, hb, _, _, h1, h2, _⟩ := Amm.add_liquidity_ok_inv h
    rw [h1, h2]
    exact Nat.mul_le_mul (Nat.le_add_right _ _) (Nat.le_add_right _ _)

/-- Witness for C4: a concrete successful swap and a concrete
successful deposit, with the theorem applied to each. -/
theorem c4_witness :
    Amm.swap ⟨1000000, 1000000, 1000000, 0, 0⟩ 10000 0 true =
      .ok (⟨1010000, 990129, 1000000, 30, 0⟩, 9871) ∧
    1000000 * 1000000 ≤ 1010000 * 990129 ∧
    Amm.add_liquidity ⟨1000000, 1000000, 1000000, 0, 0⟩ 50000 50000 0 =
      .ok (⟨1050000, 1050000, 1050000, 0, 0⟩, 50000) ∧
    1000000 * 1000000 ≤ 1050000 * 1050000 :=
  ⟨rfl, c4_constant_product_nondecreasing.1 ⟨1000000, 1000000, 1000000, 0, 0⟩ 10000 0 true
      ⟨1010000, 990129, 1000000, 30, 0⟩ 9871 rfl,
   rfl, c4_constant_product_nondecreasing.2 ⟨1000000, 1000000, 1000000, 0, 0⟩ 50000 50000 0
      ⟨1050000, 1050000, 1050000, 0, 0⟩ 50000 rfl⟩

/-- Counterexample for C9: at feeBps = 30, reserves
(1_000_000, 1_000_000) and amountIn = 10_000 in the A-to-B direction,
the swap outputs 9_871, not the claimed 99_304. -/
theorem c9_counterexample :
    (Amm.swap ⟨1000000, 1000000, 1000000, 0, 0⟩ 10000 0 true).toOption.map Prod.snd =
      some 9871 ∧ (9871 : Nat) ≠ 99304 :=
  ⟨rfl, by norm_num⟩

/-- C9 (amended): the scenario swap succeeds with output 9_871, which
is exactly `floor(10000·9970·1000000 / (1000000·10000 + 10000·9970))`
(the spec quotes this very expression but miscomputes it as 99_304). -/
theorem c9_swap_scenario :
    Amm.swap ⟨1000000, 1000000, 1000000, 0, 0⟩ 10000 0 true =
      .ok (⟨1010000, 990129, 1000000, 30, 0⟩, 9871) ∧
    (9871 : Nat) = 10000 * 9970 * 1000000 / (1000000 * 10000 + 10000 * 9970) :=
  ⟨rfl, by norm_num⟩

/-- C3: for a swap with positive input and positive reserves (64-bit
values) whose 128-bit numerator fits, the output equals
`floor(amountIn·9970·reserveOut / (reserveIn·10000 + amountIn·9970))`;
the swap fails with SlippageExceeded when that output is below
`min_amount_out`, and (the slippage check passing) fails with
InsufficientLiquidity when the output would reach `reserve_out`. -/
theorem c3_swap_formula (pool : Amm.LiquidityPool) (amount_in min_amount_out : Nat)
    (d : Bool)
    (hin : 0 < amount_in) (hdr : 0 < pool.doom_reserve) (hlr : 0 < pool.life_reserve)
    (hin64 : amount_in < U64) (hd64 : pool.doom_reserve < U64)
    (hl64 : pool.life_reserve < U64)
    (hfit : amount_in * 9970 * Amm.reserveOut pool d < U128) :
    (amount_in * 9970 * Amm.reserveOut pool d /
        (Amm.reserveIn pool d * 10000 + amount_in * 9970) < min_amount_out →
      Amm.swap pool amount_in min_amount_out d = .error .slippageExceeded) ∧
    (min_amount_out ≤ amount_in * 9970 * Amm.reserveOut pool d /
        (Amm.reserveIn pool d * 10000 + amount_in * 9970) →
      Amm.reserveOut pool d ≤ amount_in * 9970 * Amm.reserveOut pool d /
        (Amm.reserveIn pool d * 10000 + amount_in * 9970) →
      Amm.swap pool amount_in min_amount_out d = .error .insufficientLiquidity) ∧
    (∀ (pool1 : Amm.LiquidityPool) (out : Nat),
      Amm.swap pool amount_in min_amount_out d = .ok (pool1, out) →
      out = amount_in * 9970 * Amm.reserveOut pool d /
        (Amm.reserveIn pool d * 10000 + amount_in * 9970)) := by
  have hfee : (10000 : Nat) - Amm.SWAP_FEE_BPS = 9970 := rfl
  have hrIn : Amm.reserveIn pool d < U64 := by
    cases d <;> simp [Amm.reserveIn, hd64, hl64]
  have hrOut : Amm.reserveOut pool d < U64 := by
    cases d <;> simp [Amm.reserveOut, hd64, hl64]
  have hrInPos : 0 < Amm.reserveIn pool d := by
    cases d <;> simp [Amm.reserveIn, hdr, hlr]
  have hrOutPos : 0 < Amm.reserveOut pool d := by
    cases d <;> simp [Amm.reserveOut, hdr, hlr]
  have hU : U64 = 2 ^ 64 := rfl
  have hUU : U128 = 2 ^ 128 := rfl
  have c3' : amount_in * (10000 - Amm.SWAP_FEE_BPS) < U128 := by
    rw [hfee, hUU]; rw [hU] at hin64; omega
  have c4' : amount_in * (10000 - Amm.SWAP_FEE_BPS) * Amm.reserveOut pool d < U128 := by
    rw [hfee]; exact hfit
  have c5' : Amm.reserveIn pool d * 10000 < U128 := by
    rw [hUU]; rw [hU] at hrIn; omega
  have c6' : Amm.reserveIn pool d * 10000 +
      amount_in * (10000 - Amm.SWAP_FEE_BPS) < U128 := by
    rw [hfee, hUU]; rw [hU] at hrIn hin64; omega
  have c7' : 0 < Amm.reserveIn pool d * 10000 +
      amount_in * (10000 - Amm.SWAP_FEE_BPS) := by
    rw [hfee]; omega
  have hq : amount_in * 9970 * Amm.reserveOut pool d /
      (Amm.reserveIn pool d * 10000 + amount_in * 9970) ≤ Amm.reserveOut pool d := by
    have h2 : 0 < amount_in * 9970 := by positivity
    have h1 : amount_in * 9970 ≤ Amm.reserveIn pool d * 10000 + amount_in * 9970 := by
      omega
    calc amount_in * 9970 * Amm.reserveOut pool d /
          (Amm.reserveIn pool d * 10000 + amount_in * 9970)
        ≤ amount_in * 9970 * Amm.reserveOut pool d / (amount_in * 9970) :=
          Nat.div_le_div_left h1 h2
      _ = Amm.reserveOut pool d := Nat.mul_div_cancel_left _ h2
  have hso : Amm.swapAmountOut pool amount_in d =
      amount_in * 9970 * Amm.reserveOut pool d /
        (Amm.reserveIn pool d * 10000 + amount_in * 9970) := by
    unfold Amm.swapAmountOut
    rw [hfee]
    exact Nat.mod_eq_of_lt (lt_of_le_of_lt hq hrOut)
  refine ⟨?_, ?_, ?_⟩
  · intro hs
    unfold Amm.swap
    rw [if_pos hin, if_pos ⟨hdr, hlr⟩, if_pos c3', if_pos c4', if_pos c5', if_pos c6',
      if_pos c7', if_neg (by rw [hso]; omega)]
  · intro h1 h2
    unfold Amm.swap
    rw [if_pos hin, if_pos ⟨hdr, hlr⟩, if_pos c3', if_pos c4', if_pos c5', if_pos c6',
      if_pos c7', if_pos (by rw [hso]; omega), if_neg (by rw [hso]; omega)]
  · intro pool1 out h
    obtain ⟨_, _, _, hout, _⟩ := Amm.swap_ok_inv h
    rw [hout, hso]

/-- Witness for C3 at the concrete scenario pool: all hypotheses hold
and the successful swap's output agrees with the formula. -/
theorem c3_witness :
    0 < (10000 : Nat) ∧
    10000 * 9970 * Amm.reserveOut ⟨1000000, 1000000, 1000000, 0, 0⟩ true < U128 ∧
    (9871 : Nat) = 10000 * 9970 * Amm.reserveOut ⟨1000000, 1000000, 1000000, 0, 0⟩ true /
      (Amm.reserveIn ⟨1000000, 1000000, 1000000, 0, 0⟩ true * 10000 + 10000 * 9970) :=
  ⟨by norm_num, by decide,
   (c3_swap_formula ⟨1000000, 1000000, 1000000, 0, 0⟩ 10000 0 true (by norm_num)
       (by norm_num) (by norm_num) (by decide) (by decide) (by decide) (by decide)).2.2
     ⟨1010000, 990129, 1000000, 30, 0⟩ 9871 rfl⟩

/-- A pool side's implied odds never exceed 10000 once the divisor
dominates the numerator. -/
theorem odds_side_le {x total : Nat} (hx : x ≤ total) : x * 10000 / total % U64 ≤ 10000 := by
  rcases Nat.eq_zero_or_pos total with h0 | hpos
  · subst h0
    simp
  · have hdiv : x * 10000 / total ≤ 10000 :=
      Nat.div_le_of_le_mul (by omega)
    have : x * 10000 / total % U64 = x * 10000 / total :=
      Nat.mod_eq_of_lt (lt_of_le_of_lt hdiv (by norm_num [U64]))
    omega

/-- C10 (amended): for an event with `u64`-valued pools, `doom_odds`
and `life_odds` are each at most 10000, both are exactly 5000 when the
pools are both zero, the division is only taken with a positive
divisor, and the two odds sum to at most 10000 provided
`doom_pool + life_pool` does not saturate the `u64` `total_pool`. -/
theorem c10_odds_bounds (e : PM.PredictionEvent)
    (hd : e.doom_pool < U64) (hl : e.life_pool < U64) :
    e.doom_odds ≤ 10000 ∧ e.life_odds ≤ 10000 ∧
    (e.doom_pool + e.life_pool = 0 → e.doom_odds = 5000 ∧ e.life_odds = 5000) ∧
    (e.total_pool ≠ 0 → 0 < e.total_pool) ∧
    (e.doom_pool + e.life_pool < U64 → e.doom_odds + e.life_odds ≤ 10000) := by
  have hdle : e.doom_pool ≤ e.total_pool ∨ e.total_pool = 0 := by
    unfold PM.PredictionEvent.total_pool
    omega
  have hlle : e.life_pool ≤ e.total_pool ∨ e.total_pool = 0 := by
    unfold PM.PredictionEvent.total_pool
    omega
  refine ⟨?_, ?_, ?_, fun h => Nat.pos_of_ne_zero h, ?_⟩
  · unfold PM.PredictionEvent.doom_odds
    rcases eq_or_ne e.total_pool 0 with h0 | h0
    · simp [h0]
    · rw [if_neg h0]
      rcases hdle with h | h
      · exact odds_side_le h
      · exact absurd h h0
  · unfold PM.PredictionEvent.life_odds
    rcases eq_or_ne e.total_pool 0 with h0 | h0
    · simp [h0]
    · rw [if_neg h0]
      rcases hlle with h | h
      · exact odds_side_le h
      · exact absurd h h0
  · intro h
    have hd0 : e.doom_pool = 0 := by omega
    have hl0 : e.life_pool = 0 := by omega
    have ht : e.total_pool = 0 := by
      unfold PM.PredictionEvent.total_pool
      rw [hd0, hl0]
      simp [U64]
    unfold PM.PredictionEvent.doom_odds PM.PredictionEvent.life_odds
    rw [if_pos ht, if_pos ht]
    exact ⟨rfl, rfl⟩
  · intro hsum
    rcases Nat.eq_zero_or_pos (e.doom_pool + e.life_pool) with h0 | hpos
    · have hd0 : e.doom_pool = 0 := by omega
      have hl0 : e.life_pool = 0 := by omega
      have ht : e.total_pool = 0 := by
        unfold PM.PredictionEvent.total_pool
        rw [hd0, hl0]
        simp [U64]
      unfold PM.PredictionEvent.doom_odds PM.PredictionEvent.life_odds
      rw [if_pos ht, if_pos ht]
    · have ht : e.total_pool = e.doom_pool + e.life_pool := by
        unfold PM.PredictionEvent.total_pool
        omega
      have htpos : e.total_pool ≠ 0 := by omega
      unfold PM.PredictionEvent.doom_odds PM.PredictionEvent.life_odds
      rw [if_neg htpos, if_neg htpos, ht]
      set t := e.doom_pool + e.life_pool with hts
      have hmd' : e.doom_pool * 10000 / t ≤ 10000 :=
        Nat.div_le_of_le_mul (by omega)
      have hml' : e.life_pool * 10000 / t ≤ 10000 :=
        Nat.div_le_of_le_mul (by omega)
      have hmd : e.doom_pool * 10000 / t % U64 = e.doom_pool * 10000 / t :=
        Nat.mod_eq_of_lt (lt_of_le_of_lt hmd' (by norm_num [U64]))
      have hml : e.life_pool * 10000 / t % U64 = e.life_pool * 10000 / t :=
        Nat.mod_eq_of_lt (lt_of_le_of_lt hml' (by norm_num [U64]))
      rw [hmd, hml]
      calc e.doom_pool * 10000 / t + e.life_pool * 10000 / t
          ≤ (e.doom_pool * 10000 + e.life_pool * 10000) / t := div_add_div_le _ _ _
        _ = t * 10000 / t := by rw [← Nat.add_mul]
        _ = 10000 := Nat.mul_div_cancel_left _ hpos

/-- Counterexample for C10: with both pools at `u64::MAX`,
`total_pool` saturates and the two odds sum to 20000 > 10000. -/
theorem c10_counterexample :
    PM.PredictionEvent.doom_odds ⟨0, 1, .active, none, U64 - 1, U64 - 1, 2, none⟩ +
      PM.PredictionEvent.life_odds ⟨0, 1, .active, none, U64 - 1, U64 - 1, 2, none⟩ =
      20000 ∧ ¬ (20000 : Nat) ≤ 10000 :=
  ⟨by decide, by norm_num⟩

/-- Witness for C10 at a concrete event with pools (700, 300). -/
theorem c10_witness :
    (700 : Nat) < U64 ∧ (300 : Nat) < U64 ∧
    PM.PredictionEvent.doom_odds ⟨0, 1, .active, none, 700, 300, 2, none⟩ ≤ 10000 ∧
    PM.PredictionEvent.doom_odds ⟨0, 1, .active, none, 700, 300, 2, none⟩ +
      PM.PredictionEvent.life_odds ⟨0, 1, .active, none, 700, 300, 2, none⟩ ≤ 10000 :=
  ⟨by decide, by decide,
   (c10_odds_bounds ⟨0, 1, .active, none, 700, 300, 2, none⟩ (by decide) (by decide)).1,
   (c10_odds_bounds ⟨0, 1, .active, none, 700, 300, 2, none⟩ (by decide) (by decide)).2.2.2.2
     (by decide)⟩

/-- Evaluation of `calculate_payout` on a winning bet under the
no-overflow side conditions: the exact pari-mutuel share/fee/payout
values. -/
theorem PM.calculate_payout_some (e : PM.PredictionEvent) (w : Nat) (b : PM.Outcome)
    (fee_bps : Nat)
    (hres : e.outcome = some b)
    (hfee : fee_bps ≤ 10000)
    (hw : w ≤ PM.winningPoolOf e b)
    (hpools : e.doom_pool + e.life_pool < U64)
    (hW : 0 < PM.winningPoolOf e b) :
    e.calculate_payout w b fee_bps =
      some (w + (w * PM.losingPoolOf e b / PM.winningPoolOf e b -
                 w * PM.losingPoolOf e b / PM.winningPoolOf e b * fee_bps / 10000),
            w * PM.losingPoolOf e b / PM.winningPoolOf e b * fee_bps / 10000) := by
  have hWL : PM.winningPoolOf e b + PM.losingPoolOf e b = e.doom_pool + e.life_pool := by
    cases b <;> simp [PM.winningPoolOf, PM.losingPoolOf] <;> omega
  have hU : U64 = 2 ^ 64 := rfl
  have hshare_le : w * PM.losingPoolOf e b / PM.winningPoolOf e b ≤
      PM.losingPoolOf e b := by
    exact Nat.div_le_of_le_mul (by nlinarith [hw, Nat.zero_le (PM.losingPoolOf e b)])
  have hfee_le : w * PM.losingPoolOf e b / PM.winningPoolOf e b * fee_bps / 10000 ≤
      w * PM.losingPoolOf e b / PM.winningPoolOf e b := by
    calc w * PM.losingPoolOf e b / PM.winningPoolOf e b * fee_bps / 10000
        ≤ w * PM.losingPoolOf e b / PM.winningPoolOf e b * 10000 / 10000 :=
          Nat.div_le_div_right (Nat.mul_le_mul_left _ hfee)
      _ = w * PM.losingPoolOf e b / PM.winningPoolOf e b :=
          Nat.mul_div_cancel _ (by norm_num)
  unfold PM.PredictionEvent.calculate_payout
  rw [if_neg (by simp [hres]), if_neg (by omega),
    if_pos (by
      calc w * PM.losingPoolOf e b < U64 * U64 :=
            Nat.mul_lt_mul'' (by omega) (by omega)
        _ = U128 := by norm_num [U64, U128]),
    if_pos (by
      calc w * PM.losingPoolOf e b / PM.winningPoolOf e b * fee_bps
          ≤ PM.losingPoolOf e b * 10000 := Nat.mul_le_mul hshare_le hfee
        _ < U128 := by rw [hU] at hpools; norm_num [U128]; omega),
    if_pos hfee_le,
    if_pos (by
      have : w + (w * PM.losingPoolOf e b / PM.winningPoolOf e b -
          w * PM.losingPoolOf e b / PM.winningPoolOf e b * fee_bps / 10000) < U64 := by
        omega
      calc w + (w * PM.losingPoolOf e b / PM.winningPoolOf e b -
            w * PM.losingPoolOf e b / PM.winningPoolOf e b * fee_bps / 10000)
          < U64 := this
        _ ≤ U128 := by norm_num [U64, U128])]
  rw [Nat.mod_eq_of_lt (by omega), Nat.mod_eq_of_lt (by omega)]

/-- C1 (amended): for a resolved event with `u64` pools whose total
fits in a `u64`, feeBps at most 10000, and a wager at most the bet
side's pool, `calculate_payout` returns `none` exactly when the bet's
side differs from the outcome or the winning pool is zero, and
otherwise returns `fee = floor(floor(w*L/W)*feeBps/10000)` and
`payout = w + (floor(w*L/W) - fee)`.  Scenario B: doomPool = 700,
lifePool = 300, feeBps = 200, a DOOM wager of 100 pays (142, 0). -/
theorem c1_payout_formula (e : PM.PredictionEvent) (w : Nat) (b o : PM.Outcome)
    (fee_bps : Nat)
    (hres : e.outcome = some o)
    (hfee : fee_bps ≤ 10000)
    (hw : w ≤ PM.winningPoolOf e b)
    (hpools : e.doom_pool + e.life_pool < U64) :
    (e.calculate_payout w b fee_bps = none ↔ (b ≠ o ∨ PM.winningPoolOf e b = 0)) ∧
    (b = o → 0 < PM.winningPoolOf e b →
      e.calculate_payout w b fee_bps =
        some (w + (w * PM.losingPoolOf e b / PM.winningPoolOf e b -
                   w * PM.losingPoolOf e b / PM.winningPoolOf e b * fee_bps / 10000),
              w * PM.losingPoolOf e b / PM.winningPoolOf e b * fee_bps / 10000)) ∧
    PM.PredictionEvent.calculate_payout
        ⟨0, 1, .resolved, some .doom, 700, 300, 2, none⟩ 100 .doom 200 = some (142, 0) := by
  have hsome : b = o → 0 < PM.winningPoolOf e b →
      e.calculate_payout w b fee_bps =
        some (w + (w * PM.losingPoolOf e b / PM.winningPoolOf e b -
                   w * PM.losingPoolOf e b / PM.winningPoolOf e b * fee_bps / 10000),
              w * PM.losingPoolOf e b / PM.winningPoolOf e b * fee_bps / 10000) := by
    intro hb hW
    subst hb
    exact PM.calculate_payout_some e w b fee_bps hres hfee hw hpools hW
  refine ⟨?_, hsome, by decide⟩
  constructor
  · intro hnone
    by_contra hcon
    push_neg at hcon
    obtain ⟨hb, hW⟩ := hcon
    rw [hsome hb (Nat.pos_of_ne_zero hW)] at hnone
    exact Option.noConfusion hnone
  · intro hcase
    unfold PM.PredictionEvent.calculate_payout
    rcases hcase with hb | hW
    · rw [if_pos (by simp [hres]; exact fun hob => hb hob.symm)]
    · by_cases hb : b = o
      · subst hb
        rw [if_neg (by simp [hres]), if_pos hW]
      · rw [if_pos (by simp [hres]; exact fun hob => hb hob.symm)]

/-- Counterexample for C1: with doomPool = lifePool = w = 2^63 and
feeBps = 0 the claimed payout is w + floor(w*L/W) = 2^64, but the
`as u64` cast in `calculate_payout` truncates it to 0. -/
theorem c1_counterexample :
    PM.PredictionEvent.calculate_payout
        ⟨0, 1, .resolved, some .doom, 9223372036854775808, 9223372036854775808, 2, none⟩
        9223372036854775808 .doom 0 = some (0, 0) ∧
    9223372036854775808 +
        (9223372036854775808 * 9223372036854775808 / 9223372036854775808 -
         9223372036854775808 * 9223372036854775808 / 9223372036854775808 * 0 / 10000) =
      18446744073709551616 ∧
    (0 : Nat) ≠ 18446744073709551616 :=
  ⟨by decide, by norm_num, by norm_num⟩

/-- Witness for C1 at the scenario-B event. -/
theorem c1_witness :
    (⟨0, 1, .resolved, some .doom, 700, 300, 2, none⟩ :
        PM.PredictionEvent).outcome = some .doom ∧
    (200 : Nat) ≤ 10000 ∧
    (100 : Nat) ≤ PM.winningPoolOf ⟨0, 1, .resolved, some .doom, 700, 300, 2, none⟩ .doom ∧
    (700 : Nat) + 300 < U64 ∧
    PM.PredictionEvent.calculate_payout ⟨0, 1, .resolved, some .doom, 700, 300, 2, none⟩
      100 .doom 200 = some (142, 0) :=
  ⟨rfl, by norm_num, by decide, by decide,
   (c1_payout_formula ⟨0, 1, .resolved, some .doom, 700, 300, 2, none⟩ 100 .doom .doom 200
       rfl (by norm_num) (by decide) (by decide)).2.2⟩

/-- Sums of pointwise-added maps split. -/
theorem sum_map_add_nat (ws : List Nat) (f g : Nat → Nat) :
    (ws.map fun w => f w + g w).sum = (ws.map f).sum + (ws.map g).sum := by
  induction ws with
  | nil => simp
  | cons a t ih =>
    simp only [List.map_cons, List.sum_cons, ih]
    omega

/-- Summing per-wager floored shares loses against flooring the
summed share. -/
theorem map_div_sum_le (ws : List Nat) (L W : Nat) :
    (ws.map fun w => w * L / W).sum ≤ ws.sum * L / W := by
  induction ws with
  | nil => simp
  | cons a t ih =>
    simp only [List.map_cons, List.sum_cons]
    calc a * L / W + (t.map fun w => w * L / W).sum
        ≤ a * L / W + t.sum * L / W := by omega
      _ ≤ (a * L + t.sum * L) / W := div_add_div_le _ _ _
      _ = (a + t.sum) * L / W := by rw [Nat.add_mul]

/-- Inversion of a `some` result of `calculate_payout`: the returned
pair is the truncated payout and fee. -/
theorem PM.calculate_payout_some_inv {e : PM.PredictionEvent} {w : Nat}
    {b : PM.Outcome} {fee_bps p q : Nat}
    (h : e.calculate_payout w b fee_bps = some (p, q)) :
    p = (w + (w * PM.losingPoolOf e b / PM.winningPoolOf e b -
          w * PM.losingPoolOf e b / PM.winningPoolOf e b * fee_bps / 10000)) % U64 ∧
    q = w * PM.losingPoolOf e b / PM.winningPoolOf e b * fee_bps / 10000 % U64 := by
  unfold PM.PredictionEvent.calculate_payout at h
  by_cases c1 : e.outcome ≠ some b
  case pos => rw [if_pos c1] at h; exact Option.noConfusion h
  rw [if_neg c1] at h
  by_cases c2 : PM.winningPoolOf e b = 0
  case pos => rw [if_pos c2] at h; exact Option.noConfusion h
  rw [if_neg c2] at h
  by_cases c3 : w * PM.losingPoolOf e b < U128
  case neg => rw [if_neg c3] at h; exact Option.noConfusion h
  rw [if_pos c3] at h
  by_cases c4 : w * PM.losingPoolOf e b / PM.winningPoolOf e b * fee_bps < U128
  case neg => rw [if_neg c4] at h; exact Option.noConfusion h
  rw [if_pos c4] at h
  by_cases c5 : w * PM.losingPoolOf e b / PM.winningPoolOf e b * fee_bps / 10000 ≤
      w * PM.losingPoolOf e b / PM.winningPoolOf e b
  case neg => rw [if_neg c5] at h; exact Option.noConfusion h
  rw [if_pos c5] at h
  by_cases c6 : w + (w * PM.losingPoolOf e b / PM.winningPoolOf e b -
      w * PM.losingPoolOf e b / PM.winningPoolOf e b * fee_bps / 10000) < U128
  case neg => rw [if_neg c6] at h; exact Option.noConfusion h
  rw [if_pos c6] at h
  obtain ⟨h1, h2⟩ := Prod.mk.injEq .. |>.mp (Option.some.inj h)
  exact ⟨h1.symm, h2.symm⟩

/-- Any payout actually returned is at most stake plus the floored
share of the losing pool. -/
theorem payoutOrZero_le (e : PM.PredictionEvent) (w : Nat) (b : PM.Outcome)
    (fee_bps : Nat) :
    PM.payoutOrZero e w b fee_bps ≤
      w + w * PM.losingPoolOf e b / PM.winningPoolOf e b := by
  unfold PM.payoutOrZero
  cases hc : e.calculate_payout w b fee_bps with
  | none => simp
  | some pr =>
    obtain ⟨p, q⟩ := pr
    obtain ⟨h1, _⟩ := PM.calculate_payout_some_inv hc
    show p ≤ w + w * PM.losingPoolOf e b / PM.winningPoolOf e b
    rw [h1]
    calc (w + (w * PM.losingPoolOf e b / PM.winningPoolOf e b -
            w * PM.losingPoolOf e b / PM.winningPoolOf e b * fee_bps / 10000)) % U64
        ≤ w + (w * PM.losingPoolOf e b / PM.winningPoolOf e b -
            w * PM.losingPoolOf e b / PM.winningPoolOf e b * fee_bps / 10000) :=
          Nat.mod_le _ _
      _ ≤ w + w * PM.losingPoolOf e b / PM.winningPoolOf e b :=
          Nat.add_le_add_left (Nat.sub_le _ _) _

/-- C2 (amended): for a resolved event and winning wagers summing to
the winning pool W > 0, the payouts returned by the payout calculator
sum to at most W + L; and when feeBps = 0 (and the total pool fits a
`u64`) the sum equals `W + Σ floor(wᵢ·L/W)` — full conservation less
the per-bettor flooring loss, which can be strictly below W + L. -/
theorem c2_conservation (e : PM.PredictionEvent) (o : PM.Outcome) (fee_bps : Nat)
    (ws : List Nat)
    (hres : e.outcome = some o)
    (hsum : ws.sum = PM.winningPoolOf e o)
    (hW : 0 < PM.winningPoolOf e o) :
    PM.totalPayouts e o fee_bps ws ≤ PM.winningPoolOf e o + PM.losingPoolOf e o ∧
    (fee_bps = 0 → e.doom_pool + e.life_pool < U64 →
      PM.totalPayouts e o fee_bps ws =
        PM.winningPoolOf e o +
          (ws.map fun w => w * PM.losingPoolOf e o / PM.winningPoolOf e o).sum) := by
  constructor
  · unfold PM.totalPayouts
    calc (ws.map fun w => PM.payoutOrZero e w o fee_bps).sum
        ≤ (ws.map fun w => w + w * PM.losingPoolOf e o / PM.winningPoolOf e o).sum := by
          apply List.sum_le_sum
          intro w _
          exact payoutOrZero_le e w o fee_bps
      _ = ws.sum + (ws.map fun w => w * PM.losingPoolOf e o / PM.winningPoolOf e o).sum := by
          rw [sum_map_add_nat ws (fun w => w) (fun w => w * PM.losingPoolOf e o /
            PM.winningPoolOf e o), List.map_id']
      _ ≤ ws.sum + ws.sum * PM.losingPoolOf e o / PM.winningPoolOf e o := by
          have := map_div_sum_le ws (PM.losingPoolOf e o) (PM.winningPoolOf e o)
          omega
      _ = PM.winningPoolOf e o +
            PM.winningPoolOf e o * PM.losingPoolOf e o / PM.winningPoolOf e o := by
          rw [hsum]
      _ = PM.winningPoolOf e o + PM.losingPoolOf e o := by
          rw [Nat.mul_div_cancel_left _ hW]
  · intro hf hpools
    subst hf
    unfold PM.totalPayouts
    have heach : ∀ w ∈ ws, PM.payoutOrZero e w o 0 =
        w + w * PM.losingPoolOf e o / PM.winningPoolOf e o := by
      intro w hw
      have hwle : w ≤ PM.winningPoolOf e o := by
        rw [← hsum]
        exact List.single_le_sum (fun x _ => Nat.zero_le x) w hw
      unfold PM.payoutOrZero
      rw [PM.calculate_payout_some e w o 0 hres (by norm_num) hwle hpools hW]
      simp
    calc (ws.map fun w => PM.payoutOrZero e w o 0).sum
        = (ws.map fun w => w + w * PM.losingPoolOf e o / PM.winningPoolOf e o).sum := by
          rw [List.map_congr_left heach]
      _ = ws.sum + (ws.map fun w => w * PM.losingPoolOf e o / PM.winningPoolOf e o).sum := by
          rw [sum_map_add_nat ws (fun w => w) (fun w => w * PM.losingPoolOf e o /
            PM.winningPoolOf e o), List.map_id']
      _ = _ := by rw [hsum]

/-- Counterexample for C2: W = 3 via wagers [1, 1, 1], L = 1,
feeBps = 0: each bettor's share floors to 0, so the payouts sum to 3,
strictly below W + L = 4 — the claimed exact equality fails. -/
theorem c2_counterexample :
    PM.totalPayouts ⟨0, 1, .resolved, some .doom, 3, 1, 3, none⟩ .doom 0 [1, 1, 1] = 3 ∧
    (3 : Nat) ≠ 3 + 1 :=
  ⟨by decide, by norm_num⟩

/-- Witness for C2 at the same concrete event. -/
theorem c2_witness :
    (⟨0, 1, .resolved, some .doom, 3, 1, 3, none⟩ :
        PM.PredictionEvent).outcome = some .doom ∧
    ([1, 1, 1] : List Nat).sum =
      PM.winningPoolOf ⟨0, 1, .resolved, some .doom, 3, 1, 3, none⟩ .doom ∧
    PM.totalPayouts ⟨0, 1, .resolved, some .doom, 3, 1, 3, none⟩ .doom 0 [1, 1, 1] ≤
      PM.winningPoolOf ⟨0, 1, .resolved, some .doom, 3, 1, 3, none⟩ .doom +
        PM.losingPoolOf ⟨0, 1, .resolved, some .doom, 3, 1, 3, none⟩ .doom :=
  ⟨rfl, by decide,
   (c2_conservation ⟨0, 1, .resolved, some .doom, 3, 1, 3, none⟩ .doom 0 [1, 1, 1]
      rfl (by decide) (by decide)).1⟩

/-- Inversion of a successful `place_bet`: the guards it passed and
the created bet record (flags cleared, status untouched). -/
theorem PM.place_bet_ok_inv {cfg : PM.PlatformConfig} {e : PM.PredictionEvent}
    {bet : Option PM.UserBet} {user : Nat} {o : PM.Outcome} {amount : Nat} {now : Int}
    {cfg1 : PM.PlatformConfig} {e1 : PM.PredictionEvent} {b1 : PM.UserBet}
    (h : PM.place_bet cfg e bet user o amount now = .ok (cfg1, e1, b1)) :
    cfg.paused = false ∧ bet = none ∧ 0 < amount ∧
    e.status = .active ∧ now < e.deadline ∧
    e1.status = e.status ∧ e1.outcome = e.outcome ∧
    b1.claimed = false ∧ b1.refunded = false := by
  cases o <;>
  · simp only [PM.place_bet] at h
    by_cases c1 : cfg.paused
    · rw [if_pos c1] at h; exact Except.noConfusion h
    rw [if_neg c1] at h
    by_cases c2 : bet.isSome
    · rw [if_pos c2] at h; exact Except.noConfusion h
    rw [if_neg c2] at h
    by_cases c3 : 0 < amount
    case neg => rw [if_pos c3] at h; exact Except.noConfusion h
    rw [if_neg (not_not_intro c3)] at h
    by_cases c4 : e.is_betting_open now
    case neg => rw [if_pos c4] at h; exact Except.noConfusion h
    rw [if_neg (not_not_intro c4)] at h
    obtain ⟨hact, hdl⟩ := c4
    have hb : bet = none := Option.not_isSome_iff_eq_none.mp c2
    have hp : cfg.paused = false := by simpa using c1
    split at h
    · exact Except.noConfusion h
    · rename_i e2 heq
      split at heq
      · exact Except.noConfusion heq
      obtain he2 := Except.ok.inj heq
      obtain ⟨h1, h2⟩ := Prod.mk.injEq .. |>.mp (Except.ok.inj h)
      obtain ⟨h3, h4⟩ := Prod.mk.injEq .. |>.mp h2
      refine ⟨hp, hb, c3, hact, hdl, ?_, ?_, by rw [← h4], by rw [← h4]⟩
      · rw [← h3, ← he2]
      · rw [← h3, ← he2]

/-- Inversion of a successful `resolve_event`. -/
theorem PM.resolve_event_ok_inv {cfg : PM.PlatformConfig} {e : PM.PredictionEvent}
    {caller : Nat} {now : Int} {o : PM.Outcome}
    {cfg1 : PM.PlatformConfig} {e1 : PM.PredictionEvent}
    (h : PM.resolve_event cfg e caller now o = .ok (cfg1, e1)) :
    caller = cfg.oracle ∧ e.status = .active ∧ e.deadline ≤ now ∧
    now ≤ e.resolution_deadline ∧
    e1 = { e with status := .resolved, outcome := some o, resolved_at := some now } := by
  unfold PM.resolve_event at h
  by_cases c1 : caller = cfg.oracle
  case neg => rw [if_pos c1] at h; exact Except.noConfusion h
  rw [if_neg (not_not_intro c1)] at h
  by_cases c2 : e.status = .active
  case neg => rw [if_pos c2] at h; exact Except.noConfusion h
  rw [if_neg (not_not_intro c2)] at h
  by_cases c3 : e.deadline ≤ now
  case neg => rw [if_pos c3] at h; exact Except.noConfusion h
  rw [if_neg (not_not_intro c3)] at h
  by_cases c4 : now ≤ e.resolution_deadline
  case neg => rw [if_pos c4] at h; exact Except.noConfusion h
  rw [if_neg (not_not_intro c4)] at h
  obtain ⟨h1, h2⟩ := Prod.mk.injEq .. |>.mp (Except.ok.inj h)
  exact ⟨c1, c2, c3, c4, h2.symm⟩

/-- Inversion of a successful `cancel_event`. -/
theorem PM.cancel_event_ok_inv {cfg : PM.PlatformConfig} {e : PM.PredictionEvent}
    {caller : Nat} {e1 : PM.PredictionEvent}
    (h : PM.cancel_event cfg e caller = .ok e1) :
    caller = cfg.authority ∧ e.status = .active ∧ e1 = { e with status := .cancelled } := by
  unfold PM.cancel_event at h
  by_cases c1 : caller = cfg.authority
  case neg => rw [if_pos c1] at h; exact Except.noConfusion h
  rw [if_neg (not_not_intro c1)] at h
  by_cases c2 : e.status = .active
  case neg => rw [if_pos c2] at h; exact Except.noConfusion h
  rw [if_neg (not_not_intro c2)] at h
  exact ⟨c1, c2, (Except.ok.inj h).symm⟩

/-- Inversion of a successful `claim_winnings`. -/
theorem PM.claim_winnings_ok_inv {cfg : PM.PlatformConfig} {e : PM.PredictionEvent}
    {bet : PM.UserBet} {caller : Nat}
    {cfg1 : PM.PlatformConfig} {b1 : PM.UserBet} {t : Nat}
    (h : PM.claim_winnings cfg e bet caller = .ok (cfg1, b1, t)) :
    e.status = .resolved ∧ bet.claimed = false ∧ bet.user = caller ∧
    e.outcome = some bet.outcome ∧ b1 = { bet with claimed := true } := by
  simp only [PM.claim_winnings] at h
  by_cases c1 : e.status = .resolved
  case neg => rw [if_pos c1] at h; exact Except.noConfusion h
  rw [if_neg (not_not_intro c1)] at h
  by_cases c2 : bet.claimed
  · rw [if_pos c2] at h; exact Except.noConfusion h
  rw [if_neg c2] at h
  by_cases c3 : bet.user = caller
  case neg => rw [if_pos c3] at h; exact Except.noConfusion h
  rw [if_neg (not_not_intro c3)] at h
  by_cases c4 : bet.is_winner e.outcome
  case neg => rw [if_pos c4] at h; exact Except.noConfusion h
  rw [if_neg (not_not_intro c4)] at h
  split at h
  · exact Except.noConfusion h
  · obtain ⟨h1, h2⟩ := Prod.mk.injEq .. |>.mp (Except.ok.inj h)
    obtain ⟨h3, h4⟩ := Prod.mk.injEq .. |>.mp h2
    exact ⟨c1, by simpa using c2, c3, c4, h3.symm⟩

/-- Inversion of a successful `claim_refund`. -/
theorem PM.claim_refund_ok_inv {e : PM.PredictionEvent} {bet : PM.UserBet}
    {caller : Nat} {b1 : PM.UserBet} {t : Nat}
    (h : PM.claim_refund e bet caller = .ok (b1, t)) :
    e.status = .cancelled ∧ bet.refunded = false ∧ bet.user = caller ∧
    b1 = { bet with refunded := true } ∧ t = bet.amount := by
  unfold PM.claim_refund at h
  by_cases c1 : e.status = .cancelled
  case neg => rw [if_pos c1] at h; exact Except.noConfusion h
  rw [if_neg (not_not_intro c1)] at h
  by_cases c2 : bet.refunded
  · rw [if_pos c2] at h; exact Except.noConfusion h
  rw [if_neg c2] at h
  by_cases c3 : bet.user = caller
  case neg => rw [if_pos c3] at h; exact Except.noConfusion h
  rw [if_neg (not_not_intro c3)] at h
  obtain ⟨h1, h2⟩ := Prod.mk.injEq .. |>.mp (Except.ok.inj h)
  exact ⟨c1, by simpa using c2, c3, h1.symm, h2.symm⟩

/-- The per-bet invariant `BetInv` is preserved by every successful
operation. -/
theorem PM.betInv_step {s s1 : PM.MarketState} (hinv : PM.BetInv s)
    (h : PM.Step s s1) : PM.BetInv s1 := by
  cases h with
  | placeBet user o amount now hok =>
    obtain ⟨_, _, _, hact, _, hst, _, hcl, hrf⟩ := PM.place_bet_ok_inv hok
    intro b hb
    obtain rfl : _ = b := Option.some.inj hb
    rw [hcl, hrf]
    exact ⟨fun hx => Bool.noConfusion hx, fun hx => Bool.noConfusion hx⟩
  | resolveEvent caller now o hok =>
    obtain ⟨_, hact, _, _, he1⟩ := PM.resolve_event_ok_inv hok
    intro b hb
    obtain ⟨hc, hr⟩ := hinv b hb
    subst he1
    refine ⟨fun _ => rfl, fun hx => ?_⟩
    rw [hr hx] at hact
    exact PM.EventStatus.noConfusion hact
  | cancelEvent caller hok =>
    obtain ⟨_, hact, he1⟩ := PM.cancel_event_ok_inv hok
    intro b hb
    obtain ⟨hc, hr⟩ := hinv b hb
    subst he1
    refine ⟨fun hx => ?_, fun _ => rfl⟩
    rw [hc hx] at hact
    exact PM.EventStatus.noConfusion hact
  | claimWinnings caller hb0 hok =>
    obtain ⟨hres, hcl, _, _, hb1⟩ := PM.claim_winnings_ok_inv hok
    intro b hb
    obtain rfl : _ = b := Option.some.inj hb
    subst hb1
    refine ⟨fun _ => hres, fun hx => ?_⟩
    obtain ⟨_, hr⟩ := hinv _ hb0
    rw [hr hx] at hres
    exact PM.EventStatus.noConfusion hres
  | claimRefund caller hb0 hok =>
    obtain ⟨hcanc, hrf, _, hb1, _⟩ := PM.claim_refund_ok_inv hok
    intro b hb
    obtain rfl : _ = b := Option.some.inj hb
    subst hb1
    refine ⟨fun hx => ?_, fun _ => hcanc⟩
    obtain ⟨hc, _⟩ := hinv _ hb0
    rw [hc hx] at hcanc
    exact PM.EventStatus.noConfusion hcanc

/-- C5: calling `claim_winnings` on a bet whose claimed flag is set
(with the event Resolved, as it was for the first claim to set the
flag) fails with AlreadyClaimed — an error result transfers nothing by
the atomicity of the embedding; along every operation step each flag
is monotone (never cleared), so starting false it is set at most once;
and from any state satisfying `BetInv` no reachable state has both
flags set on the same bet. -/
theorem c5_claim_once :
    (∀ (cfg : PM.PlatformConfig) (e : PM.PredictionEvent) (bet : PM.UserBet)
        (caller : Nat),
      e.status = .resolved → bet.claimed = true →
      PM.claim_winnings cfg e bet caller = .error .alreadyClaimed) ∧
    (∀ s s1 : PM.MarketState, PM.Step s s1 → ∀ b, s.bet = some b →
      ∃ b1, s1.bet = some b1 ∧ (b.claimed = true → b1.claimed = true) ∧
        (b.refunded = true → b1.refunded = true)) ∧
    (∀ s s1 : PM.MarketState, PM.BetInv s → Relation.ReflTransGen PM.Step s s1 →
      ∀ b, s1.bet = some b → ¬ (b.claimed = true ∧ b.refunded = true)) := by
  refine ⟨?_, ?_, ?_⟩
  · intro cfg e bet caller hres hcl
    unfold PM.claim_winnings
    rw [if_neg (not_not_intro hres), if_pos hcl]
  · intro s s1 hstep b hb
    cases hstep with
    | placeBet user o amount now hok =>
      obtain ⟨_, hnone, _⟩ := PM.place_bet_ok_inv hok
      rw [hnone] at hb
      exact Option.noConfusion hb
    | resolveEvent caller now o hok =>
      exact ⟨b, hb, fun hx => hx, fun hx => hx⟩
    | cancelEvent caller hok =>
      exact ⟨b, hb, fun hx => hx, fun hx => hx⟩
    | claimWinnings caller hb0 hok =>
      obtain ⟨_, _, _, _, hb1⟩ := PM.claim_winnings_ok_inv hok
      rw [hb0] at hb
      obtain rfl : _ = b := Option.some.inj hb
      subst hb1
      exact ⟨_, rfl, fun _ => rfl, fun hx => hx⟩
    | claimRefund caller hb0 hok =>
      obtain ⟨_, _, _, hb1, _⟩ := PM.claim_refund_ok_inv hok
      rw [hb0] at hb
      obtain rfl : _ = b := Option.some.inj hb
      subst hb1
      exact ⟨_, rfl, fun hx => hx, fun _ => rfl⟩
  · intro s s1 hinv hreach
    have hinv1 : PM.BetInv s1 := by
      induction hreach with
      | refl => exact hinv
      | tail hsteps hstep ih => exact PM.betInv_step ih hstep
    intro b hb ⟨hc, hr⟩
    obtain ⟨hcs, hrs⟩ := hinv1 b hb
    rw [hcs hc] at hrs
    exact PM.EventStatus.noConfusion (hrs hr)

/-- C6: once an event's status is Resolved or Cancelled, no successful
operation changes it (the operations only move Active to a terminal
status or leave the status untouched), and both `place_bet` and
`resolve_event` fail against such an event. -/
theorem c6_terminal_states :
    (∀ s s1 : PM.MarketState, PM.Step s s1 →
      (s.event.status = .resolved ∨ s.event.status = .cancelled) →
      s1.event.status = s.event.status) ∧
    (∀ (cfg : PM.PlatformConfig) (e : PM.PredictionEvent) (bet : Option PM.UserBet)
        (user : Nat) (o : PM.Outcome) (amount : Nat) (now : Int),
      (e.status = .resolved ∨ e.status = .cancelled) →
      ∃ err, PM.place_bet cfg e bet user o amount now = .error err) ∧
    (∀ (cfg : PM.PlatformConfig) (e : PM.PredictionEvent) (caller : Nat) (now : Int)
        (o : PM.Outcome),
      (e.status = .resolved ∨ e.status = .cancelled) →
      ∃ err, PM.resolve_event cfg e caller now o = .error err) := by
  have hterm_ne : ∀ e : PM.PredictionEvent,
      (e.status = .resolved ∨ e.status = .cancelled) → ¬ e.status = .active := by
    intro e he ha
    rcases he with he | he <;> rw [ha] at he <;> exact PM.EventStatus.noConfusion he
  refine ⟨?_, ?_, ?_⟩
  · intro s s1 hstep hterm
    cases hstep with
    | placeBet user o amount now hok =>
      obtain ⟨_, _, _, hact, _⟩ := PM.place_bet_ok_inv hok
      exact absurd hact (hterm_ne _ hterm)
    | resolveEvent caller now o hok =>
      obtain ⟨_, hact, _⟩ := PM.resolve_event_ok_inv hok
      exact absurd hact (hterm_ne _ hterm)
    | cancelEvent caller hok =>
      obtain ⟨_, hact, _⟩ := PM.cancel_event_ok_inv hok
      exact absurd hact (hterm_ne _ hterm)
    | claimWinnings caller hb0 hok => rfl
    | claimRefund caller hb0 hok => rfl
  · intro cfg e bet user o amount now hterm
    by_cases c1 : cfg.paused
    · exact ⟨.platformPaused, by unfold PM.place_bet; rw [if_pos c1]⟩
    by_cases c2 : bet.isSome
    · exact ⟨.betAlreadyPlaced, by unfold PM.place_bet; rw [if_neg c1, if_pos c2]⟩
    by_cases c3 : 0 < amount
    case neg =>
      exact ⟨.invalidBetAmount, by
        unfold PM.place_bet; rw [if_neg c1, if_neg c2, if_pos c3]⟩
    have c4 : ¬ e.is_betting_open now := by
      intro hopen
      exact hterm_ne _ hterm hopen.1
    exact ⟨.eventEnded, by
      unfold PM.place_bet
      rw [if_neg c1, if_neg c2, if_neg (not_not_intro c3), if_pos c4]⟩
  · intro cfg e caller now o hterm
    by_cases c1 : caller = cfg.oracle
    case neg =>
      exact ⟨.unauthorizedOracle, by unfold PM.resolve_event; rw [if_pos c1]⟩
    exact ⟨.eventAlreadyResolved, by
      unfold PM.resolve_event
      rw [if_neg (not_not_intro c1), if_pos (hterm_ne _ hterm)]⟩

/-- C7: `resolve_event` succeeds exactly when the caller is the
configured oracle, the status is Active, the betting deadline has
passed and the resolution deadline has not; each failing case returns
its own error (UnauthorizedOracle / EventAlreadyResolved /
EventNotResolved / ResolutionDeadlinePassed), and an error result
leaves the event unchanged by the atomicity of the embedding. -/
theorem c7_resolve_characterization (cfg : PM.PlatformConfig)
    (e : PM.PredictionEvent) (caller : Nat) (now : Int) (o : PM.Outcome) :
    (caller ≠ cfg.oracle →
      PM.resolve_event cfg e caller now o = .error .unauthorizedOracle) ∧
    (caller = cfg.oracle → e.status ≠ .active →
      PM.resolve_event cfg e caller now o = .error .eventAlreadyResolved) ∧
    (caller = cfg.oracle → e.status = .active → now < e.deadline →
      PM.resolve_event cfg e caller now o = .error .eventNotResolved) ∧
    (caller = cfg.oracle → e.status = .active → e.deadline ≤ now →
      e.resolution_deadline < now →
      PM.resolve_event cfg e caller now o = .error .resolutionDeadlinePassed) ∧
    (caller = cfg.oracle → e.status = .active → e.deadline ≤ now →
      now ≤ e.resolution_deadline →
      PM.resolve_event cfg e caller now o =
        .ok ({ cfg with total_events := min (cfg.total_events + 1) (U64 - 1) },
             { e with status := .resolved, outcome := some o,
                      resolved_at := some now })) := by
  refine ⟨?_, ?_, ?_, ?_, ?_⟩
  · intro c1
    unfold PM.resolve_event
    rw [if_pos c1]
  · intro c1 c2
    unfold PM.resolve_event
    rw [if_neg (not_not_intro c1), if_pos c2]
  · intro c1 c2 c3
    unfold PM.resolve_event
    rw [if_neg (not_not_intro c1), if_neg (not_not_intro c2), if_pos (by omega)]
  · intro c1 c2 c3 c4
    unfold PM.resolve_event
    rw [if_neg (not_not_intro c1), if_neg (not_not_intro c2),
      if_neg (not_not_intro c3), if_pos (by omega)]
  · intro c1 c2 c3 c4
    unfold PM.resolve_event
    rw [if_neg (not_not_intro c1), if_neg (not_not_intro c2),
      if_neg (not_not_intro c3), if_neg (not_not_intro c4)]

/-- Witness for C5: a second claim on an already-claimed bet. -/
theorem c5_witness :
    (⟨10, 20, .resolved, some .doom, 700, 300, 2, none⟩ :
        PM.PredictionEvent).status = .resolved ∧
    (⟨5, .doom, 100, 0, true, false⟩ : PM.UserBet).claimed = true ∧
    PM.claim_winnings ⟨1, 2, 200, false, 0, 0, 0, 0⟩
        ⟨10, 20, .resolved, some .doom, 700, 300, 2, none⟩
        ⟨5, .doom, 100, 0, true, false⟩ 5 = .error .alreadyClaimed :=
  ⟨rfl, rfl,
   c5_claim_once.1 ⟨1, 2, 200, false, 0, 0, 0, 0⟩
     ⟨10, 20, .resolved, some .doom, 700, 300, 2, none⟩
     ⟨5, .doom, 100, 0, true, false⟩ 5 rfl rfl⟩

/-- Witness for C6 at a concrete resolved event. -/
theorem c6_witness :
    ((⟨10, 20, .resolved, some .doom, 700, 300, 2, none⟩ :
        PM.PredictionEvent).status = .resolved ∨
      (⟨10, 20, .resolved, some .doom, 700, 300, 2, none⟩ :
        PM.PredictionEvent).status = .cancelled) ∧
    (∃ err, PM.place_bet ⟨1, 2, 200, false, 0, 0, 0, 0⟩
        ⟨10, 20, .resolved, some .doom, 700, 300, 2, none⟩ none 5 .doom 100 5 =
        .error err) ∧
    (∃ err, PM.resolve_event ⟨1, 2, 200, false, 0, 0, 0, 0⟩
        ⟨10, 20, .resolved, some .doom, 700, 300, 2, none⟩ 2 25 .life =
        .error err) :=
  ⟨Or.inl rfl,
   c6_terminal_states.2.1 ⟨1, 2, 200, false, 0, 0, 0, 0⟩
     ⟨10, 20, .resolved, some .doom, 700, 300, 2, none⟩ none 5 .doom 100 5 (Or.inl rfl),
   c6_terminal_states.2.2 ⟨1, 2, 200, false, 0, 0, 0, 0⟩
     ⟨10, 20, .resolved, some .doom, 700, 300, 2, none⟩ 2 25 .life (Or.inl rfl)⟩

/-- Witness for C7: a concrete successful resolution. -/
theorem c7_witness :
    (2 : Nat) = (⟨1, 2, 200, false, 0, 0, 0, 0⟩ : PM.PlatformConfig).oracle ∧
    (⟨10, 20, .active, none, 0, 0, 0, none⟩ : PM.PredictionEvent).status = .active ∧
    (⟨10, 20, .active, none, 0, 0, 0, none⟩ : PM.PredictionEvent).deadline ≤ 15 ∧
    (15 : Int) ≤ (⟨10, 20, .active, none, 0, 0, 0, none⟩ :
      PM.PredictionEvent).resolution_deadline ∧
    PM.resolve_event ⟨1, 2, 200, false, 0, 0, 0, 0⟩
        ⟨10, 20, .active, none, 0, 0, 0, none⟩ 2 15 .doom =
      .ok (⟨1, 2, 200, false, 0, 0, 1, 0⟩,
           ⟨10, 20, .resolved, some .doom, 0, 0, 0, some 15⟩) :=
  ⟨rfl, rfl, by norm_num, by norm_num,
   by
     have h := (c7_resolve_characterization ⟨1, 2, 200, false, 0, 0, 0, 0⟩
         ⟨10, 20, .active, none, 0, 0, 0, none⟩ 2 15 .doom).2.2.2.2
       rfl rfl (by norm_num) (by norm_num)
     simpa using h⟩

/-- Integers below `2^53` are exactly representable as doubles. -/
theorem Amm.rnd64_small {n : Nat} (h : n < 2 ^ 53) : Amm.rnd64 n = n := by
  unfold Amm.rnd64
  rw [if_pos h]

/-- For products of at most `2^52`, the double-precision square-root
pipeline computes the exact integer square root: the correctly rounded
`√m` cannot cross an integer boundary because the half-ulp rounding
error is smaller than the distance from `√m` to the next integer. -/
theorem Amm.floorSqrtRnd_eq_sqrt {m : Nat} (hm1 : 1 ≤ m) (hm52 : m ≤ 2 ^ 52) :
    Amm.floorSqrtRnd m = Nat.sqrt m := by
  have hm0 : m ≠ 0 := by omega
  have hL1 : 2 ^ Nat.log2 m ≤ m := Nat.log2_self_le hm0
  have hL2 : m < 2 ^ (Nat.log2 m + 1) := Nat.lt_log2_self
  simp only [Amm.floorSqrtRnd]
  rw [if_neg hm0]
  generalize hl : Nat.log2 m = l
  rw [hl] at hL1 hL2
  have he1 : 2 ^ (2 * (l / 2)) ≤ m :=
    le_trans (Nat.pow_le_pow_right (by norm_num) (by omega)) hL1
  have he2 : m < 2 ^ (2 * (l / 2) + 2) :=
    lt_of_lt_of_le hL2 (Nat.pow_le_pow_right (by norm_num) (by omega))
  have he26 : l / 2 ≤ 26 := by
    by_contra hcon
    push_neg at hcon
    have h54 : (2 : Nat) ^ 54 ≤ 2 ^ (2 * (l / 2)) :=
      Nat.pow_le_pow_right (by norm_num) (by omega)
    have := le_trans h54 he1
    norm_num at this
    omega
  rw [if_pos (show l / 2 ≤ 52 by omega)]
  have hs1 : 2 ^ (l / 2) ≤ Nat.sqrt m := by
    apply Nat.le_sqrt.2
    calc 2 ^ (l / 2) * 2 ^ (l / 2) = 2 ^ (2 * (l / 2)) := by
          rw [← pow_add]; ring_nf
      _ ≤ m := he1
  have hs2 : Nat.sqrt m < 2 ^ (l / 2 + 1) := by
    apply Nat.sqrt_lt.2
    calc m < 2 ^ (2 * (l / 2) + 2) := he2
      _ = 2 ^ (l / 2 + 1) * 2 ^ (l / 2 + 1) := by rw [← pow_add]; ring_nf
  have hsq1 : Nat.sqrt m * Nat.sqrt m ≤ m := Nat.sqrt_le m
  have hsq2 : m < (Nat.sqrt m + 1) * (Nat.sqrt m + 1) := Nat.lt_succ_sqrt m
  have h4 : ∀ d : Nat, 2 ^ d * 2 ^ d = 4 ^ d := by
    intro d
    rw [← mul_pow]
    norm_num
  rcases eq_or_lt_of_le he26 with he26' | he25
  · -- l / 2 = 26 forces m = 2 ^ 52
    have hml : m = 2 ^ 52 := by
      rw [he26'] at he1
      norm_num at he1 hm52 ⊢
      omega
    subst hml
    rw [he26']
    have hk0 : Nat.sqrt (2 ^ 52 * 4 ^ (52 - 26)) = 2 ^ 52 :=
      sqrt_eq_of (by norm_num) (by norm_num)
    rw [hk0]
    rw [if_pos (by norm_num)]
    rw [sqrt_eq_of (show 2 ^ 26 * 2 ^ 26 ≤ 2 ^ 52 by norm_num)
      (by norm_num)]
    norm_num
  · -- l / 2 ≤ 25
    have hd2 : 2 * (Nat.sqrt m + 1) ≤ 2 ^ (52 - l / 2) := by
      have hsle : Nat.sqrt m + 1 ≤ 2 ^ (l / 2 + 1) := hs2
      calc 2 * (Nat.sqrt m + 1) ≤ 2 * 2 ^ (l / 2 + 1) := by omega
        _ = 2 ^ (l / 2 + 2) := by ring
        _ ≤ 2 ^ (52 - l / 2) := Nat.pow_le_pow_right (by norm_num) (by omega)
    have klow : Nat.sqrt m * 2 ^ (52 - l / 2) ≤ Nat.sqrt (m * 4 ^ (52 - l / 2)) := by
      apply Nat.le_sqrt.2
      calc Nat.sqrt m * 2 ^ (52 - l / 2) * (Nat.sqrt m * 2 ^ (52 - l / 2))
          = Nat.sqrt m * Nat.sqrt m * (2 ^ (52 - l / 2) * 2 ^ (52 - l / 2)) := by ring
        _ = Nat.sqrt m * Nat.sqrt m * 4 ^ (52 - l / 2) := by rw [h4]
        _ ≤ m * 4 ^ (52 - l / 2) := Nat.mul_le_mul_right _ hsq1
    have khigh : Nat.sqrt (m * 4 ^ (52 - l / 2)) + 1 <
        (Nat.sqrt m + 1) * 2 ^ (52 - l / 2) := by
      have hpow1 : 1 ≤ 2 ^ (52 - l / 2) := Nat.one_le_two_pow
      have hkk : Nat.sqrt (m * 4 ^ (52 - l / 2)) <
          (Nat.sqrt m + 1) * 2 ^ (52 - l / 2) - 1 := by
        apply Nat.sqrt_lt.2
        have h1 : 1 ≤ (Nat.sqrt m + 1) * 2 ^ (52 - l / 2) :=
          Nat.one_le_iff_ne_zero.2 (by positivity)
        zify [h1]
        have h4' : ((2 : Int) ^ (52 - l / 2)) * 2 ^ (52 - l / 2) = 4 ^ (52 - l / 2) := by
          exact_mod_cast congrArg Nat.cast (h4 (52 - l / 2))
        nlinarith [hsq2, hd2, Nat.zero_le m, Nat.zero_le (Nat.sqrt m),
          Nat.one_le_two_pow (n := 52 - l / 2)]
      omega
    have hdiveq : ∀ k, Nat.sqrt (m * 4 ^ (52 - l / 2)) ≤ k →
        k ≤ Nat.sqrt (m * 4 ^ (52 - l / 2)) + 1 → k / 2 ^ (52 - l / 2) = Nat.sqrt m := by
      intro k hk1 hk2
      exact Nat.div_eq_of_lt_le (le_trans klow hk1) (lt_of_le_of_lt hk2 khigh)
    split
    · exact hdiveq _ le_rfl (by omega)
    · split
      · exact hdiveq _ (by omega) le_rfl
      · split
        · exact hdiveq _ le_rfl (by omega)
        · exact hdiveq _ (by omega) le_rfl

/-- `√(2^52) = 2^26`. -/
theorem Amm.sqrt_two_pow_52 : Nat.sqrt (2 ^ 52) = 2 ^ 26 :=
  sqrt_eq_of (by norm_num) (by norm_num)

/-- First-deposit mint for products of at most `2^52`: the float
pipeline yields exactly `floor(sqrt(a·b))`, and the `u64` saturation
clamp does not engage. -/
theorem Amm.mintForDeposit_first {pool : Amm.LiquidityPool} {a b : Nat}
    (hz : pool.lp_supply = 0) (ha : 0 < a) (hb : 0 < b) (hab : a * b ≤ 2 ^ 52) :
    Amm.mintForDeposit pool a b =
      (if Amm.MINIMUM_LIQUIDITY < Nat.sqrt (a * b) then .ok (Nat.sqrt (a * b))
       else .error .insufficientInitialLiquidity) := by
  unfold Amm.mintForDeposit
  rw [if_pos hz, if_pos (lt_of_le_of_lt hab (by norm_num [U128]))]
  rw [Amm.rnd64_small (lt_of_le_of_lt hab (by norm_num))]
  rw [Amm.floorSqrtRnd_eq_sqrt (Nat.one_le_iff_ne_zero.2 (by positivity)) hab]
  have hs26 : Nat.sqrt (a * b) ≤ 2 ^ 26 := by
    have h := Nat.sqrt_le_sqrt hab
    rw [Amm.sqrt_two_pow_52] at h
    exact h
  have hmin : min (Nat.sqrt (a * b)) (U64 - 1) = Nat.sqrt (a * b) := by
    apply min_eq_left
    have : (2 : Nat) ^ 26 ≤ U64 - 1 := by norm_num [U64]
    omega
  rw [hmin]

/-- C8 (amended): for a first deposit (LP-supply 0) with positive
amounts whose product is at most `2^52`, the LP tokens minted equal
`floor(sqrt(amountA·amountB))`, the operation fails with
InsufficientInitialLiquidity unless that value strictly exceeds 1000
(and with SlippageExceeded below the caller's floor), and the first
deposit (10_000, 40_000) mints exactly 20_000.  The `2^52` bound is
needed because the code computes `(product as f64).sqrt() as u64`,
which is exact only while the double-rounding cannot move the square
root across an integer. -/
theorem c8_first_deposit (pool : Amm.LiquidityPool) (a b minLp : Nat)
    (hz : pool.lp_supply = 0) (ha : 0 < a) (hb : 0 < b) (hab : a * b ≤ 2 ^ 52) :
    (Nat.sqrt (a * b) ≤ 1000 →
      Amm.add_liquidity pool a b minLp = .error .insufficientInitialLiquidity) ∧
    (1000 < Nat.sqrt (a * b) → Nat.sqrt (a * b) < minLp →
      Amm.add_liquidity pool a b minLp = .error .slippageExceeded) ∧
    (1000 < Nat.sqrt (a * b) → minLp ≤ Nat.sqrt (a * b) →
      pool.doom_reserve + a < U64 → pool.life_reserve + b < U64 →
      pool.lp_supply + Nat.sqrt (a * b) < U64 →
      Amm.add_liquidity pool a b minLp =
        .ok ({ pool with
               doom_reserve := pool.doom_reserve + a,
               life_reserve := pool.life_reserve + b,
               lp_supply := pool.lp_supply + Nat.sqrt (a * b) },
             Nat.sqrt (a * b))) ∧
    Amm.add_liquidity ⟨0, 0, 0, 0, 0⟩ 10000 40000 0 =
      .ok (⟨10000, 40000, 20000, 0, 0⟩, 20000) := by
  have hmain : ∀ (pool : Amm.LiquidityPool) (a b minLp : Nat), pool.lp_supply = 0 →
      0 < a → 0 < b → a * b ≤ 2 ^ 52 →
      (Nat.sqrt (a * b) ≤ 1000 →
        Amm.add_liquidity pool a b minLp = .error .insufficientInitialLiquidity) ∧
      (1000 < Nat.sqrt (a * b) → Nat.sqrt (a * b) < minLp →
        Amm.add_liquidity pool a b minLp = .error .slippageExceeded) ∧
      (1000 < Nat.sqrt (a * b) → minLp ≤ Nat.sqrt (a * b) →
        pool.doom_reserve + a < U64 → pool.life_reserve + b < U64 →
        pool.lp_supply + Nat.sqrt (a * b) < U64 →
        Amm.add_liquidity pool a b minLp =
          .ok ({ pool with
                 doom_reserve := pool.doom_reserve + a,
                 life_reserve := pool.life_reserve + b,
                 lp_supply := pool.lp_supply + Nat.sqrt (a * b) },
               Nat.sqrt (a * b))) := by
    intro pool a b minLp hz ha hb hab
    refine ⟨?_, ?_, ?_⟩
    · intro hle
      unfold Amm.add_liquidity
      rw [if_pos ⟨ha, hb⟩, Amm.mintForDeposit_first hz ha hb hab,
        if_neg (by norm_num [Amm.MINIMUM_LIQUIDITY]; omega)]
    · intro hgt hlt
      unfold Amm.add_liquidity
      rw [if_pos ⟨ha, hb⟩, Amm.mintForDeposit_first hz ha hb hab,
        if_pos (by norm_num [Amm.MINIMUM_LIQUIDITY]; omega)]
      simp only
      rw [if_neg (by omega)]
    · intro hgt hge hf1 hf2 hf3
      unfold Amm.add_liquidity
      rw [if_pos ⟨ha, hb⟩, Amm.mintForDeposit_first hz ha hb hab,
        if_pos (by norm_num [Amm.MINIMUM_LIQUIDITY]; omega)]
      simp only
      rw [if_pos hge, if_pos ⟨hf1, hf2, hf3⟩]
  refine ⟨(hmain pool a b minLp hz ha hb hab).1, (hmain pool a b minLp hz ha hb hab).2.1,
    (hmain pool a b minLp hz ha hb hab).2.2, ?_⟩
  have hsqrt : Nat.sqrt (10000 * 40000) = 20000 := sqrt_eq_of (by norm_num) (by norm_num)
  have h := (hmain ⟨0, 0, 0, 0, 0⟩ 10000 40000 0 rfl (by norm_num) (by norm_num)
    (by norm_num)).2.2 (by rw [hsqrt]; norm_num) (by omega) (by norm_num [U64])
    (by norm_num [U64]) (by rw [hsqrt]; norm_num [U64])
  rw [hsqrt] at h
  simpa using h

/-- `134217727 · 134217729 = 2^54 - 1` rounds **up** to `2^54` when
cast to `f64` (it sits exactly halfway between the doubles `2^54 - 2`
and `2^54`, and ties go to the even mantissa). -/
theorem Amm.rnd64_c8 : Amm.rnd64 (134217727 * 134217729) = 2 ^ 54 := by
  simp only [Amm.rnd64]
  rw [if_neg (by norm_num)]
  rw [log2_eq_of (show 2 ^ 53 ≤ 134217727 * 134217729 by norm_num)
    (show 134217727 * 134217729 < 2 ^ (53 + 1) by norm_num)]
  norm_num

/-- The double square root of `2^54` truncates to `2^27`. -/
theorem Amm.floorSqrtRnd_c8 : Amm.floorSqrtRnd (2 ^ 54) = 2 ^ 27 := by
  simp only [Amm.floorSqrtRnd]
  rw [if_neg (by norm_num)]
  rw [log2_eq_of (show (2 : Nat) ^ 54 ≤ 2 ^ 54 by norm_num)
    (show (2 : Nat) ^ 54 < 2 ^ (54 + 1) by norm_num)]
  rw [if_pos (by norm_num)]
  rw [sqrt_eq_of (show (2 : Nat) ^ 52 * 2 ^ 52 ≤ 2 ^ 54 * 4 ^ (52 - 54 / 2) by norm_num)
    (by norm_num)]
  rw [if_pos (by norm_num)]
  norm_num

/-- Counterexample for C8: the first deposit
(134217727, 134217729) has product `2^54 - 1`, whose exact integer
square root is `2^27 - 1 = 134217727`; but the `f64` cast rounds the
product up to `2^54`, so the code mints `2^27 = 134217728` LP tokens —
one more than `floor(sqrt(amountA·amountB))`. -/
theorem c8_counterexample :
    Amm.add_liquidity ⟨0, 0, 0, 0, 0⟩ 134217727 134217729 0 =
      .ok (⟨134217727, 134217729, 134217728, 0, 0⟩, 134217728) ∧
    Nat.sqrt (134217727 * 134217729) = 134217727 ∧
    (134217728 : Nat) ≠ 134217727 := by
  refine ⟨?_, sqrt_eq_of (by norm_num) (by norm_num), by norm_num⟩
  have hmint : Amm.mintForDeposit ⟨0, 0, 0, 0, 0⟩ 134217727 134217729 =
      .ok 134217728 := by
    unfold Amm.mintForDeposit
    rw [if_pos rfl, if_pos (by norm_num [U128]), Amm.rnd64_c8, Amm.floorSqrtRnd_c8]
    rw [if_pos (by norm_num [Amm.MINIMUM_LIQUIDITY, U64])]
    norm_num [U64]
  unfold Amm.add_liquidity
  rw [if_pos (by norm_num), hmint]
  simp only
  rw [if_pos (by norm_num), if_pos (by norm_num [U64])]

/-- Witness for C8 at scenario C. -/
theorem c8_witness :
    (⟨0, 0, 0, 0, 0⟩ : Amm.LiquidityPool).lp_supply = 0 ∧
    0 < (10000 : Nat) ∧ 0 < (40000 : Nat) ∧ (10000 : Nat) * 40000 ≤ 2 ^ 52 ∧
    Amm.add_liquidity ⟨0, 0, 0, 0, 0⟩ 10000 40000 0 =
      .ok (⟨10000, 40000, 20000, 0, 0⟩, 20000) :=
  ⟨rfl, by norm_num, by norm_num, by norm_num,
   (c8_first_deposit ⟨0, 0, 0, 0, 0⟩ 10000 40000 0 rfl (by norm_num) (by norm_num)
      (by norm_num)).2.2.2⟩
